import Mathlib

/-!
Verification development for the semantic engine of a whole-program static
analyzer for a gradually-typed scripting language.  The components embedded
here are the union type combiner (`src/ttype/type_combiner.rs`), the simple
assertion reconciler (`src/analyzer/reconciler/simple_assertion_reconciler.rs`),
the definition analyzer (`src/analyzer/def_analyzer.rs`), the arithmetic
analyzer (`src/analyzer/expr/binop/arithmetic_analyzer.rs`), the unused-symbol
pass (`src/file_scanner_analyzer/unused_symbols.rs`) and the symbol reference
tracker (`src/code_info/symbol_references.rs`).

Modelling conventions:
* Recursive operations (the combiner recurses through container type
  parameters) are given an explicit `fuel : Nat` argument and return `none`
  when the fuel runs out; every theorem below supplies sufficient fuel.
  A `none` result also models a Rust panic (`panic!`, `todo!`, arithmetic
  aborts), as noted at each site.
* Hash maps keyed by canonical type-key strings are modelled as association
  lists keyed by the structured type `TypeKey`, which is in bijection with
  the canonical key strings described in the specification (section 4.1).
* Unions nested inside atomics (container type parameters, known-item slots)
  are modelled by their lists of atomics; the scope-level flags
  (`possibly_undefined_from_try`, `ignore_falsable_issues`) live on the
  top-level `TUnion` structure consumed by the analyzers.
-/

/-- Interned string identifier.  `StrId::empty()` is modelled as `0`. -/
def StrId : Type := Nat

instance : DecidableEq StrId := instDecidableEqNat

instance : Repr StrId := instReprNat

instance (n : Nat) : OfNat StrId n := ⟨(n : Nat)⟩

/-- The reserved empty member id used to mark a reference to a symbol itself. -/
def StrId.empty : StrId := (0 : Nat)

/-- Dictionary key taxonomy, from the data model: an integer offset, a string
key, or an enum case. -/
inductive DictKey : Type where
  | dint : Nat → DictKey
  | dstr : String → DictKey
  | denum : String → String → DictKey
  deriving DecidableEq, Repr

/-- Atomic types of the lattice, translated from the data-model section of the
specification and the pattern matches in the source files.  Nested unions are
represented by their atomic lists.  Variants never exercised by the embedded
components (classname wrappers, closures) are omitted. -/
inductive TAtomic : Type where
  | tint : TAtomic
  | tfloat : TAtomic
  | tstring : TAtomic
  | tbool : TAtomic
  | ttrue : TAtomic
  | tfalse : TAtomic
  | tnull : TAtomic
  | tnothing : TAtomic
  | tvoid : TAtomic
  | tarraykey : TAtomic
  | tnum : TAtomic
  | tscalar : TAtomic
  | tmixed : TAtomic
  | tmixedAny : TAtomic
  | tmixedFromLoopIsset : TAtomic
  | tnonnullMixed : TAtomic
  | ttruthyMixed : TAtomic
  | tfalsyMixed : TAtomic
  | tmixedWithFlags : Bool → Bool → Bool → Bool → TAtomic
  | tliteralInt : Int → TAtomic
  | tliteralString : String → TAtomic
  | tstringWithFlags : Bool → Bool → Bool → TAtomic
  | tvec : Option (List (Nat × Bool × List TAtomic)) → List TAtomic → Bool →
      Option Nat → TAtomic
  | tdict : Option (List (DictKey × Bool × List TAtomic)) →
      Option (List TAtomic × List TAtomic) → Bool → Option String → TAtomic
  | tkeyset : List TAtomic → TAtomic
  | tnamedObject : String → Option (List (List TAtomic)) → Bool → TAtomic
  | tobject : TAtomic
  | tenum : String → TAtomic
  | tenumLiteralCase : String → String → Option (List TAtomic) → TAtomic
  | tgenericParam : String → List TAtomic → String → TAtomic
  | ttypeAlias : String → TAtomic
  deriving Repr

/-- Structured canonical keys, in bijection with the canonical key strings of
specification section 4.1 (`"int"`, `"int(42)"`, class names, ...). -/
inductive TypeKey : Type where
  | kstr : String → TypeKey
  | knamed : String → TypeKey
  | klitInt : Int → TypeKey
  | klitString : String → TypeKey
  | knamedG : String → String → TypeKey
  deriving DecidableEq, Repr

/-- Association list lookup (model of hash-map `get`). -/
def alGet {κ α : Type} [DecidableEq κ] (m : List (κ × α)) (k : κ) : Option α :=
  (m.find? (fun p => p.1 = k)).map (fun p => p.2)

/-- Association list insert-or-replace (model of hash-map `insert`). -/
def alInsert {κ α : Type} [DecidableEq κ] : List (κ × α) → κ → α → List (κ × α)
  | [], k, v => [(k, v)]
  | p :: rest, k, v =>
    if p.1 = k then (k, v) :: rest else p :: alInsert rest k v

/-- Association list removal (model of hash-map `remove`). -/
def alRemove {κ α : Type} [DecidableEq κ] : List (κ × α) → κ → List (κ × α)
  | [], _ => []
  | p :: rest, k => if p.1 = k then rest else p :: alRemove rest k

/-- Association list key-membership (model of hash-map `contains_key`). -/
def alContains {κ α : Type} [DecidableEq κ] (m : List (κ × α)) (k : κ) : Bool :=
  (alGet m k).isSome

/-- Set-style insertion into a list (model of hash-set `insert`). -/
def listAddSet {α : Type} [DecidableEq α] (l : List α) (x : α) : List α :=
  if x ∈ l then l else l ++ [x]

/-- Canonical key of a parameter-free atomic, modelled from the spec:
primitives map to their lowercase names, literals carry their value
(`int(42)`), named objects, enums and aliases are keyed by their (class)
name.  A named object carrying type parameters is keyed by
`TAtomic.getKeyD` below, which renders the parameters into the key
(`name<k1,k2>`); on every other atomic the two agree. -/
def TAtomic.getKey : TAtomic → TypeKey
  | .tint => .kstr "int"
  | .tfloat => .kstr "float"
  | .tstring => .kstr "string"
  | .tbool => .kstr "bool"
  | .ttrue => .kstr "true"
  | .tfalse => .kstr "false"
  | .tnull => .kstr "null"
  | .tnothing => .kstr "nothing"
  | .tvoid => .kstr "void"
  | .tarraykey => .kstr "arraykey"
  | .tnum => .kstr "num"
  | .tscalar => .kstr "scalar"
  | .tmixed => .kstr "mixed"
  | .tmixedAny => .kstr "mixed"
  | .tmixedFromLoopIsset => .kstr "mixed"
  | .tnonnullMixed => .kstr "mixed"
  | .ttruthyMixed => .kstr "mixed"
  | .tfalsyMixed => .kstr "mixed"
  | .tmixedWithFlags _ _ _ _ => .kstr "mixed"
  | .tliteralInt v => .klitInt v
  | .tliteralString s => .klitString s
  | .tstringWithFlags _ _ _ => .kstr "string"
  | .tvec _ _ _ _ => .kstr "vec"
  | .tdict _ _ _ _ => .kstr "dict"
  | .tkeyset _ => .kstr "keyset"
  | .tnamedObject n _ _ => .knamed n
  | .tobject => .kstr "object"
  | .tenum n => .knamed n
  | .tenumLiteralCase e _ _ => .knamed e
  | .tgenericParam n _ d => .knamed (n ++ "@" ++ d)
  | .ttypeAlias n => .knamed n

/-- The canonical key rendered as the string the code computes. -/
def TypeKey.render : TypeKey → String
  | .kstr s => s
  | .knamed n => n
  | .klitInt v => "int(" ++ toString v ++ ")"
  | .klitString s => "string(" ++ s ++ ")"
  | .knamedG n ps => n ++ "<" ++ ps ++ ">"

/-- Rendered id of one atomic as it appears inside a generic object's key:
the canonical key string, with a generic named object rendering its own
parameters recursively.  The fuel bounds the rendering depth; every use
below supplies fuel exceeding the depth of the rendered value. -/
def TAtomic.keyString : Nat → TAtomic → String
  | 0, a => (TAtomic.getKey a).render
  | f + 1, .tnamedObject n (some ps) _ =>
    n ++ "<" ++ String.intercalate ", " (ps.map (fun u =>
      String.intercalate "|" (u.map (fun a => TAtomic.keyString f a)))) ++ ">"
  | _ + 1, a => (TAtomic.getKey a).render

/-- Model of `get_key` (spec section 4.1: canonical keys, with
`NamedObject{name, type_params} → "name<k1,k2>"`): a named object carrying
type parameters is keyed by its class name together with the rendered
parameter list, so it never shares a key with the parameter-free class name;
every other atomic keeps its `TAtomic.getKey` key. -/
def TAtomic.getKeyD (fuel : Nat) : TAtomic → TypeKey
  | .tnamedObject n (some ps) _ =>
    .knamedG n (String.intercalate ", " (ps.map (fun u =>
      String.intercalate "|" (u.map (fun a => TAtomic.keyString fuel a)))))
  | a => TAtomic.getKey a

/-- Model of `TAtomic::is_mixed`: the mixed family of atomics. -/
def TAtomic.isMixedAtom : TAtomic → Bool
  | .tmixed | .tmixedAny | .tmixedFromLoopIsset | .tnonnullMixed
  | .ttruthyMixed | .tfalsyMixed | .tmixedWithFlags _ _ _ _ => true
  | _ => false

/-- Model of `TUnion::is_nothing` on a nested union: a single `nothing`. -/
def listIsNothing : List TAtomic → Bool
  | [.tnothing] => true
  | _ => false

/-- Model of `TUnion::is_mixed` on a nested union: a single mixed atomic. -/
def listIsMixed : List TAtomic → Bool
  | [a] => a.isMixedAtom
  | _ => false

/-- Generic option comparison used by the structural equality below. -/
def optBeq {α : Type} (f : α → α → Bool) : Option α → Option α → Bool
  | none, none => true
  | some a, some b => f a b
  | _, _ => false

/-- Fuelled structural equality of atomics, the model of Rust `PartialEq` on
`TAtomic`; `taListBeq` lifts it to nested unions.  With exhausted fuel the
comparison conservatively answers `false`; every use below supplies fuel
exceeding the depth of the compared values. -/
def taBeq : Nat → TAtomic → TAtomic → Bool
  | 0, _, _ => false
  | f + 1, a, b =>
    let lb : List TAtomic → List TAtomic → Bool := fun x y =>
      x.length == y.length && (x.zip y).all fun p => taBeq f p.1 p.2
    match a, b with
    | .tint, .tint => true
    | .tfloat, .tfloat => true
    | .tstring, .tstring => true
    | .tbool, .tbool => true
    | .ttrue, .ttrue => true
    | .tfalse, .tfalse => true
    | .tnull, .tnull => true
    | .tnothing, .tnothing => true
    | .tvoid, .tvoid => true
    | .tarraykey, .tarraykey => true
    | .tnum, .tnum => true
    | .tscalar, .tscalar => true
    | .tmixed, .tmixed => true
    | .tmixedAny, .tmixedAny => true
    | .tmixedFromLoopIsset, .tmixedFromLoopIsset => true
    | .tnonnullMixed, .tnonnullMixed => true
    | .ttruthyMixed, .ttruthyMixed => true
    | .tfalsyMixed, .tfalsyMixed => true
    | .tmixedWithFlags a1 b1 c1 d1, .tmixedWithFlags a2 b2 c2 d2 =>
      a1 == a2 && b1 == b2 && c1 == c2 && d1 == d2
    | .tliteralInt v1, .tliteralInt v2 => v1 == v2
    | .tliteralString s1, .tliteralString s2 => s1 == s2
    | .tstringWithFlags a1 b1 c1, .tstringWithFlags a2 b2 c2 =>
      a1 == a2 && b1 == b2 && c1 == c2
    | .tvec k1 p1 n1 c1, .tvec k2 p2 n2 c2 =>
      optBeq (fun x y => x.length == y.length &&
        (x.zip y).all fun q => q.1.1 == q.2.1 && q.1.2.1 == q.2.2.1 &&
          lb q.1.2.2 q.2.2.2) k1 k2 &&
      lb p1 p2 && n1 == n2 && c1 == c2
    | .tdict k1 p1 n1 s1, .tdict k2 p2 n2 s2 =>
      optBeq (fun x y => x.length == y.length &&
        (x.zip y).all fun q => q.1.1 == q.2.1 && q.1.2.1 == q.2.2.1 &&
          lb q.1.2.2 q.2.2.2) k1 k2 &&
      optBeq (fun x y => lb x.1 y.1 && lb x.2 y.2) p1 p2 &&
      n1 == n2 && s1 == s2
    | .tkeyset p1, .tkeyset p2 => lb p1 p2
    | .tnamedObject a1 tp1 i1, .tnamedObject a2 tp2 i2 =>
      a1 == a2 &&
      optBeq (fun x y => x.length == y.length &&
        (x.zip y).all fun q => lb q.1 q.2) tp1 tp2 &&
      i1 == i2
    | .tobject, .tobject => true
    | .tenum n1, .tenum n2 => n1 == n2
    | .tenumLiteralCase e1 m1 c1, .tenumLiteralCase e2 m2 c2 =>
      e1 == e2 && m1 == m2 && optBeq lb c1 c2
    | .tgenericParam n1 a1 d1, .tgenericParam n2 a2 d2 =>
      n1 == n2 && lb a1 a2 && d1 == d2
    | .ttypeAlias n1, .ttypeAlias n2 => n1 == n2
    | _, _ => false

/-- Fuelled structural equality on nested unions (Rust `PartialEq` on
`TUnion` restricted to its atomic list). -/
def taListBeq (fuel : Nat) (x y : List TAtomic) : Bool :=
  x.length == y.length && (x.zip y).all fun p => taBeq fuel p.1 p.2

/-- Scope-level union: the atomic list plus the flags read by the analyzers
(`parent_nodes` and `has_mutations` are not consumed by the embedded code and
are omitted). -/
structure TUnion : Type where
  types : List TAtomic
  possiblyUndefinedFromTry : Bool := false
  ignoreFalsableIssues : Bool := false
  deriving Repr

/-- Model of `TUnion::new`. -/
def TUnion.new (types : List TAtomic) : TUnion := { types := types }

/-- User-visible issue kinds exercised by the embedded components, from the
error-handling taxonomy. -/
inductive IssueKind : Type where
  | unrecognizedStatement : IssueKind
  | unusedFunction : IssueKind
  | unusedClass : IssueKind
  | unusedPrivateMethod : IssueKind
  | unusedPublicOrProtectedMethod : IssueKind
  | typeDoesNotContain : IssueKind
  | redundantTypeComparison : IssueKind
  deriving DecidableEq, Repr

/-- Source position (model of `HPos`): interned file path plus the location
fields read by the embedded passes. -/
structure HPos : Type where
  filePath : StrId := StrId.empty
  startOffset : Nat := 0
  endOffset : Nat := 0
  startLine : Nat := 0
  endLine : Nat := 0
  startColumn : Nat := 1
  deriving DecidableEq, Repr

/-- Identifier of a function-like: a top-level function or a class method. -/
inductive FunctionLikeIdentifier : Type where
  | function : StrId → FunctionLikeIdentifier
  | method : StrId → StrId → FunctionLikeIdentifier
  deriving DecidableEq, Repr

/-- A user-visible issue (model of `Issue` and `Issue::new`). -/
structure Issue : Type where
  kind : IssueKind
  message : String
  pos : HPos
  functionlikeId : Option FunctionLikeIdentifier
  deriving DecidableEq, Repr

/-- The function-like metadata consumed by the unused-definition pass. -/
structure FunctionLikeInfo : Type where
  userDefined : Bool
  dynamicallyCallable : Bool
  generated : Bool
  nameLocation : Option HPos
  defLocation : HPos
  suppressedIssues : Option (List IssueKind)

/-- The slice of the codebase model consumed by the embedded components: the
class-hierarchy oracles used by the combiner's object subtyping, the
function-like table and the interner used by the unused-definition pass. -/
structure CodebaseInfo : Type where
  classOrInterfaceOrEnumExists : String → Bool := fun _ => false
  classExists : String → Bool := fun _ => false
  classExtendsOrImplements : String → String → Bool := fun _ _ => false
  classExtends : String → String → Bool := fun _ _ => false
  interfaceExtends : String → String → Bool := fun _ _ => false
  classImplements : String → String → Bool := fun _ _ => false
  functionlikeInfos : List (StrId × FunctionLikeInfo) := []
  internerLookup : StrId → String := fun _ => ""

/-- Model of the combiner accumulator `TypeCombination`.  Its definition
lives outside the provided sources; the fields and their initial values are
modelled from every read and write in `type_combiner.rs` (spec section 4.1:
one accumulator threaded through the sequence). -/
structure TypeCombination : Type where
  valueTypes : List (TypeKey × TAtomic) := []
  dictTypeParams : Option (List TAtomic × List TAtomic) := none
  vecTypeParam : Option (List TAtomic) := none
  keysetTypeParam : Option (List TAtomic) := none
  objectTypeParams : List (TypeKey × String × List (List TAtomic)) := []
  objectStatic : List (String × Bool) := []
  vecCounts : Option (List Nat) := some []
  vecSometimesFilled : Bool := false
  vecAlwaysFilled : Bool := true
  dictSometimesFilled : Bool := false
  dictAlwaysFilled : Bool := true
  dictEntries : List (DictKey × Bool × List TAtomic) := []
  vecEntries : List (Nat × Bool × List TAtomic) := []
  dictName : Option String := none
  falsyMixed : Bool := false
  truthyMixed : Bool := false
  nonnullMixed : Bool := false
  anyMixed : Bool := false
  vanillaMixed : Bool := false
  mixedFromLoopIsset : Option Bool := none
  literalStrings : List (TypeKey × TAtomic) := []
  literalInts : List (TypeKey × TAtomic) := []
  enumTypes : List String := []
  enumValueTypes : List (String × List String) := []
  classStringTypes : List (TypeKey × TAtomic) := []
  namedObjectTypes : List (TypeKey × TAtomic) := []
  hasObjectTopType : Bool := false

/-- Model of `TypeCombination::new()`. -/
def TypeCombination.new : TypeCombination := {}

/-- Outcome of absorbing one atomic: either an early-return result for the
whole combination or the updated accumulator. -/
inductive ScrapeOut : Type where
  | done : List TAtomic → ScrapeOut
  | cont : TypeCombination → ScrapeOut

/-- Final assembly of `combine` (`type_combiner.rs` lines 31-242), run after
every atomic has been scraped; `none` models the `panic!()` on an empty
result without `nothing`. -/
def combineFinish (comb0 : TypeCombination) : Option (List TAtomic) :=
  if comb0.nonnullMixed && alContains comb0.valueTypes (.kstr "null") then
    some [.tmixed]
  else if comb0.falsyMixed then
    (if !comb0.valueTypes.isEmpty then some [.tmixed] else some [.tfalsyMixed])
  else if comb0.truthyMixed then
    (if !comb0.valueTypes.isEmpty then some [.tmixed] else some [.ttruthyMixed])
  else if comb0.nonnullMixed then some [.tnonnullMixed]
  else if comb0.anyMixed then some [.tmixedAny]
  else if comb0.vanillaMixed then some [.tmixed]
  else if comb0.valueTypes.length == 1 && comb0.dictEntries.isEmpty &&
      comb0.vecEntries.isEmpty && comb0.dictTypeParams.isNone &&
      comb0.vecTypeParam.isNone && comb0.keysetTypeParam.isNone &&
      comb0.objectTypeParams.isEmpty && comb0.namedObjectTypes.isEmpty &&
      comb0.enumTypes.isEmpty && comb0.enumValueTypes.isEmpty &&
      comb0.literalStrings.isEmpty && comb0.literalInts.isEmpty &&
      comb0.classStringTypes.isEmpty then
    (if alContains comb0.valueTypes (.kstr "false") then some [.tfalse]
     else if alContains comb0.valueTypes (.kstr "true") then some [.ttrue]
     else some (comb0.valueTypes.map (fun p => p.2)))
  else
    let vt0 := comb0.valueTypes
    let vt1 :=
      if alContains vt0 (.kstr "void") then
        let r := alRemove vt0 (.kstr "void")
        if alContains r (.kstr "null") then alInsert r (.kstr "null") .tnull
        else r
      else vt0
    let vt2 :=
      if alContains vt1 (.kstr "false") && alContains vt1 (.kstr "true") then
        alInsert (alRemove (alRemove vt1 (.kstr "false")) (.kstr "true"))
          (.kstr "null") .tbool
      else vt1
    let dictPart : List TAtomic :=
      match comb0.dictTypeParams with
      | some (kp, vp) =>
        [.tdict (if comb0.dictEntries.isEmpty then none else some comb0.dictEntries)
          (some (kp, vp)) comb0.dictAlwaysFilled
          (match comb0.dictName with
           | some n => if n == "" then none else some n
           | none => none)]
      | none => []
    let vecPart : List TAtomic :=
      match comb0.vecTypeParam with
      | some tp =>
        [.tvec (if comb0.vecEntries.isEmpty then none else some comb0.vecEntries)
          tp comb0.vecAlwaysFilled none]
      | none => []
    let keysetPart : List TAtomic :=
      match comb0.keysetTypeParam with
      | some tp => [.tkeyset tp]
      | none => []
    let objectPart : List TAtomic :=
      comb0.objectTypeParams.map (fun p =>
        .tnamedObject p.2.1 (some p.2.2)
          ((alGet comb0.objectStatic p.2.1).getD false))
    let newTypes0 := dictPart ++ vecPart ++ keysetPart ++ objectPart ++
      comb0.literalStrings.map (fun p => p.2) ++
      comb0.literalInts.map (fun p => p.2)
    let scalarCombo := alContains vt2 (.kstr "string") &&
      alContains vt2 (.kstr "float") && alContains vt2 (.kstr "int") &&
      alContains vt2 (.kstr "bool")
    let vt3 :=
      if scalarCombo then
        alRemove (alRemove (alRemove (alRemove vt2 (.kstr "string"))
          (.kstr "float")) (.kstr "int")) (.kstr "bool")
      else vt2
    let newTypes1 := newTypes0 ++ (if scalarCombo then [.tscalar] else [])
    let vt4 := comb0.namedObjectTypes.foldl (fun m p => alInsert m p.1 p.2) vt3
    let vt5 := comb0.enumTypes.foldl
      (fun m n => alInsert m (.knamed n) (.tenum n)) vt4
    let vt6 := comb0.enumValueTypes.foldl (fun m p =>
      p.2.foldl (fun m2 v =>
        alInsert m2 (.knamed p.1) (.tenumLiteralCase p.1 v none)) m) vt5
    let hasNothing0 := alContains vt6 (.kstr "nothing")
    let count := vt6.length
    let looped := vt6.foldl (fun (st : List TAtomic × Bool) p =>
      let nt := st.1
      let hasNothing := st.2
      let tc : Nat := if hasNothing then 1 else 0
      if p.2.isMixedAtom && comb0.mixedFromLoopIsset.getD false &&
          (count > tc + 1 || nt.length > tc) then
        (nt, hasNothing)
      else
        match p.2 with
        | .tnothing =>
          if count > 1 || !nt.isEmpty then (nt, true) else (nt ++ [p.2], hasNothing)
        | _ => (nt ++ [p.2], hasNothing)) (newTypes1, hasNothing0)
    if looped.1.isEmpty && !looped.2 then none
    else if looped.1.isEmpty && looped.2 then some [.tnothing]
    else some looped.1

/-- Driver folding `scrape_type_properties` over the input sequence
(`type_combiner.rs` lines 22-29): stops at an early-return result. -/
def scrapeList (step : TAtomic → TypeCombination → Option ScrapeOut) :
    List TAtomic → TypeCombination → Option ScrapeOut
  | [], c => some (.cont c)
  | a :: rest, c =>
    match step a c with
    | none => none
    | some (.done r) => some (.done r)
    | some (.cont c2) => scrapeList step rest c2

/-- Model of `scrape_type_properties` (`type_combiner.rs` lines 245-1065).
The union-level merge `combine_union_types` (defined outside the provided
sources, modelled from the spec as `combine` of the concatenated atomic
lists) is abstracted into the parameter `cmb`, instantiated by `combine` at
decremented fuel; `beq` is the structural union equality used by the dict
merge.  With no codebase the code keys the atomic by `get_key`, modelled by
`TAtomic.getKeyD` with `kf` bounding the key-rendering depth. -/
def scrapeCore (kf : Nat) (cmb : List TAtomic → Bool → Option (List TAtomic))
    (beq : List TAtomic → List TAtomic → Bool)
    (atomic : TAtomic) (comb1 : TypeCombination)
    (codebase : Option CodebaseInfo) (overwriteEmptyArray : Bool) : Option ScrapeOut :=
  match atomic with
  | .tmixed =>
    some (.cont { comb1 with falsyMixed := false, truthyMixed := false, mixedFromLoopIsset := some false, vanillaMixed := true })
  | .tmixedAny =>
    some (.cont { comb1 with falsyMixed := false, truthyMixed := false, mixedFromLoopIsset := some false, vanillaMixed := true, anyMixed := true })
  | .tmixedFromLoopIsset =>
    if comb1.vanillaMixed || comb1.anyMixed then some (.cont comb1)
    else
      some (.cont { comb1 with mixedFromLoopIsset := if comb1.mixedFromLoopIsset.isNone then some true else comb1.mixedFromLoopIsset, valueTypes := alInsert comb1.valueTypes (.kstr "mixed") atomic })
  | .ttruthyMixed =>
    if comb1.vanillaMixed || comb1.anyMixed then some (.cont comb1)
    else if comb1.falsyMixed then some (.done [.tmixed])
    else some (.cont { comb1 with mixedFromLoopIsset := some false, truthyMixed := true })
  | .tfalsyMixed =>
    if comb1.vanillaMixed || comb1.anyMixed then some (.cont comb1)
    else if comb1.truthyMixed then some (.done [.tmixed])
    else some (.cont { comb1 with mixedFromLoopIsset := some false, falsyMixed := true })
  | .tnonnullMixed =>
    if comb1.vanillaMixed || comb1.anyMixed then some (.cont comb1)
    else if comb1.falsyMixed then some (.done [.tmixed])
    else some (.cont { comb1 with mixedFromLoopIsset := some false, nonnullMixed := true })
  | _ =>
    if (match atomic with | .tfalse | .ttrue => true | _ => false) &&
        alContains comb1.valueTypes (.kstr "bool") then
      some (.cont comb1)
    else
    let comb := match atomic with
      | .tbool =>
        { comb1 with valueTypes := alRemove (alRemove comb1.valueTypes (.kstr "false")) (.kstr "true") }
      | _ => comb1
    let typeKey : TypeKey :=
      if (match atomic with | .tvec _ _ _ _ | .tdict _ _ _ _ => true | _ => false) &&
          (alContains comb.objectTypeParams (.knamed "HH\\Container") ||
           alContains comb.objectTypeParams (.knamed "HH\\KeyedContainer")) then
        (if alContains comb.objectTypeParams (.knamed "HH\\Container") then
          TypeKey.knamed "HH\\Container"
        else TypeKey.knamed "HH\\KeyedContainer")
      else TAtomic.getKeyD kf atomic
    match atomic with
    | .tvec knownItems typeParam nonEmpty knownCount =>
        let hadPreviousParam := comb.vecTypeParam.isSome
        let newParam? : Option (List TAtomic) :=
          match comb.vecTypeParam with
          | some existing => cmb (existing ++ typeParam) overwriteEmptyArray
          | none => some typeParam
        match newParam? with
        | none => none
        | some newParam =>
          let comb := { comb with vecTypeParam := some newParam }
          let comb :=
            if nonEmpty then
              { comb with vecCounts := (match comb.vecCounts, knownCount with | some ec, some kc => some (listAddSet ec kc) | some _, none => none | none, _ => none), vecSometimesFilled := true }
            else { comb with vecAlwaysFilled := false }
          match knownItems with
          | some items =>
            let hasExistingEntries := !comb.vecEntries.isEmpty || hadPreviousParam
            let folded := items.foldl (fun st item =>
              match st with
              | none => none
              | some (entries, (hasDefinedKeys : Bool), (processed : List Nat)) =>
                match alGet entries item.1 with
                | some (eu, etype) =>
                  match cmb (etype ++ item.2.2) overwriteEmptyArray with
                  | none => none
                  | some merged =>
                    some (alInsert entries item.1 (eu || item.2.1, merged),
                      hasDefinedKeys || !item.2.1, processed ++ [item.1])
                | none =>
                  some (alInsert entries item.1 (hasExistingEntries || item.2.1, item.2.2),
                    hasDefinedKeys || !item.2.1, processed ++ [item.1]))
              (some (comb.vecEntries, false, []))
            match folded with
            | none => none
            | some (entries1, hasDefinedKeys, processed) =>
              let initialKeys := comb.vecEntries.map (fun p => p.1)
              let entries2 := entries1.map (fun p =>
                if p.1 ∈ initialKeys && !(p.1 ∈ processed) then (p.1, true, p.2.2) else p)
              some (.cont { comb with vecEntries := entries2, vecAlwaysFilled := if !hasDefinedKeys then false else comb.vecAlwaysFilled })
          | none =>
            if !overwriteEmptyArray then
              some (.cont { comb with vecEntries := comb.vecEntries.map (fun p => (p.1, true, p.2.2)) })
            else some (.cont comb)
    | .tkeyset typeParam =>
        match comb.keysetTypeParam with
        | some existing =>
          (cmb (existing ++ typeParam) overwriteEmptyArray).map
            (fun np => .cont { comb with keysetTypeParam := some np })
        | none => some (.cont { comb with keysetTypeParam := some typeParam })
    | .tdict knownItems params nonEmpty shapeName =>
        -- The combiner source predates the optional dict params; a missing
        -- pair is the nothing/nothing pair it replaced.
        let keyParam := (params.map (fun p => p.1)).getD [.tnothing]
        let valueParam := (params.map (fun p => p.2)).getD [.tnothing]
        let hadPreviousDict := comb.dictTypeParams.isSome
        let newParams? : Option (List TAtomic × List TAtomic) :=
          match comb.dictTypeParams with
          | some existingTypes =>
            match cmb (existingTypes.1 ++ keyParam) overwriteEmptyArray,
                cmb (existingTypes.2 ++ valueParam) overwriteEmptyArray with
            | some nk, some nv => some (nk, nv)
            | _, _ => none
          | none => some (keyParam, valueParam)
        match newParams? with
        | none => none
        | some newParams =>
          let comb := { comb with dictTypeParams := some newParams }
          let comb :=
            if nonEmpty then { comb with dictSometimesFilled := true }
            else { comb with dictAlwaysFilled := false }
          let comb :=
            match shapeName with
            | some sn =>
              match comb.dictName with
              | some en =>
                if en != sn then { comb with dictName := some "" } else comb
              | none => { comb with dictName := some sn }
            | none => { comb with dictName := some "" }
          match knownItems with
          | some items =>
            let hasExistingEntries := !comb.dictEntries.isEmpty || hadPreviousDict
            let folded := items.foldl (fun st item =>
              match st with
              | none => none
              | some (entries, (hasDefinedKeys : Bool), (processed : List DictKey)) =>
                match alGet entries item.1 with
                | some (eu, etype) =>
                  let newTy? :=
                    if !(beq item.2.2 etype) then
                      cmb (etype ++ item.2.2) overwriteEmptyArray
                    else some etype
                  match newTy? with
                  | none => none
                  | some merged =>
                    some (alInsert entries item.1 (eu || item.2.1, merged),
                      hasDefinedKeys || !item.2.1, processed ++ [item.1])
                | none =>
                  some (alInsert entries item.1 (hasExistingEntries || item.2.1, item.2.2),
                    hasDefinedKeys || !item.2.1, processed ++ [item.1]))
              (some (comb.dictEntries, false, []))
            match folded with
            | none => none
            | some (entries1, hasDefinedKeys, processed) =>
              let initialKeys := comb.dictEntries.map (fun p => p.1)
              let entries2 := entries1.map (fun p =>
                if p.1 ∈ initialKeys && !(p.1 ∈ processed) then (p.1, true, p.2.2) else p)
              some (.cont { comb with dictEntries := entries2, dictAlwaysFilled := if !hasDefinedKeys then false else comb.dictAlwaysFilled })
          | none =>
            if !overwriteEmptyArray then
              some (.cont { comb with dictEntries := comb.dictEntries.map (fun p => (p.1, true, p.2.2)) })
            else some (.cont comb)
    | .tobject =>
      some (.cont { comb with hasObjectTopType := true, valueTypes := alInsert comb.valueTypes typeKey atomic, namedObjectTypes := [] })
    | .tnamedObject name typeParams isThis =>
      let comb :=
        match alGet comb.objectStatic name with
        | some os =>
          if os && !isThis then
            { comb with objectStatic := alInsert comb.objectStatic name false }
          else comb
        | none => { comb with objectStatic := alInsert comb.objectStatic name isThis }
      match typeParams with
      | some tps =>
          let step1? : Option TypeCombination :=
            if name == "HH\\Container" then
              let afterDict? :=
                match comb.dictTypeParams with
                | some dictTypes =>
                  let cv? :=
                    match alGet comb.objectTypeParams (.knamed "HH\\Container") with
                    | some (_, containerTypes) =>
                      match containerTypes.get? 0 with
                      | some c0 => cmb (c0 ++ dictTypes.2) false
                      | none => none
                    | none => some dictTypes.2
                  cv?.map (fun cv => { comb with objectTypeParams := alInsert comb.objectTypeParams (.knamed "HH\\Container") (name, [cv]), dictTypeParams := none })
                | none => some comb
              match afterDict? with
              | none => none
              | some comb2 =>
                let afterVec? :=
                  match comb2.vecTypeParam with
                  | some valueParam =>
                    let cv? :=
                      match alGet comb2.objectTypeParams (.knamed "HH\\Container") with
                      | some (_, containerTypes) =>
                        match containerTypes.get? 0 with
                        | some c0 => cmb (c0 ++ valueParam) false
                        | none => none
                      | none => some valueParam
                    cv?.map (fun cv => { comb2 with objectTypeParams := alInsert comb2.objectTypeParams (.knamed "HH\\Container") (name, [cv]), vecTypeParam := none })
                  | none => some comb2
                match afterVec? with
                | none => none
                | some comb3 =>
                  match alGet comb3.objectTypeParams (.knamed "HH\\KeyedContainer") with
                  | some (_, keyedContainerTypes) =>
                    let cv? :=
                      match alGet comb3.objectTypeParams (.knamed "HH\\Container") with
                      | some (_, containerTypes) =>
                        match containerTypes.get? 0, keyedContainerTypes.get? 1 with
                        | some c0, some k1 => cmb (c0 ++ k1) false
                        | _, _ => none
                      | none => keyedContainerTypes.get? 1
                    cv?.map (fun cv => { comb3 with objectTypeParams := alRemove (alInsert comb3.objectTypeParams (.knamed "HH\\Container") (name, [cv])) (.knamed "HH\\KeyedContainer") })
                  | none => some comb3
            else some comb
          match step1? with
          | none => none
          | some combA =>
            let step2? : Option TypeCombination :=
              if name == "HH\\KeyedContainer" then
                let kct0 := alGet combA.objectTypeParams (.knamed "HH\\KeyedContainer")
                let afterDict? :=
                  match combA.dictTypeParams with
                  | some dictTypes =>
                    let ck? :=
                      match kct0 with
                      | some (_, kts) =>
                        match kts.get? 0 with
                        | some k0 => cmb (k0 ++ dictTypes.1) false
                        | none => none
                      | none => some dictTypes.2
                    let cv? :=
                      match kct0 with
                      | some (_, kts) =>
                        match kts.get? 1 with
                        | some k1 => cmb (k1 ++ dictTypes.2) false
                        | none => none
                      | none => some dictTypes.2
                    match ck?, cv? with
                    | some ck, some cv =>
                      some { combA with objectTypeParams := alInsert combA.objectTypeParams (.knamed "HH\\KeyedContainer") ("HH\\KeyedContainer", [ck, cv]), dictTypeParams := none }
                    | _, _ => none
                  | none => some combA
                match afterDict? with
                | none => none
                | some combB =>
                  match combB.vecTypeParam with
                  | some valueParam =>
                    let kct := alGet combB.objectTypeParams (.knamed "HH\\KeyedContainer")
                    let ck? :=
                      match kct with
                      | some (_, kts) =>
                        match kts.get? 0 with
                        | some k0 => cmb (k0 ++ [.tint]) false
                        | none => none
                      | none => some [TAtomic.tint]
                    let cv? :=
                      match kct with
                      | some (_, kts) =>
                        match kts.get? 1 with
                        | some k1 => cmb (k1 ++ valueParam) false
                        | none => none
                      | none => some valueParam
                    match ck?, cv? with
                    | some ck, some cv =>
                      some { combB with objectTypeParams := alInsert combB.objectTypeParams (.knamed "HH\\KeyedContainer") ("HH\\KeyedContainer", [ck, cv]), vecTypeParam := none }
                    | _, _ => none
                  | none => some combB
              else some combA
            match step2? with
            | none => none
            | some combC =>
              match alGet combC.objectTypeParams typeKey with
              | some (_, existingTypeParams) =>
                match (tps.zip existingTypeParams).mapM
                    (fun pe => cmb (pe.2 ++ pe.1) overwriteEmptyArray) with
                | none => none
                | some newTypeParams =>
                  some (.cont { combC with objectTypeParams := alInsert combC.objectTypeParams typeKey (name, newTypeParams) })
              | none =>
                some (.cont { combC with objectTypeParams := alInsert combC.objectTypeParams typeKey (name, tps) })
      | none =>
        if comb.hasObjectTopType then some (.cont comb)
        else if alContains comb.namedObjectTypes typeKey then some (.cont comb)
        else
          match codebase with
          | none =>
            some (.cont { comb with namedObjectTypes := alInsert comb.namedObjectTypes typeKey atomic })
          | some cb =>
            if !(cb.classOrInterfaceOrEnumExists name) then
              some (.cont { comb with valueTypes := alInsert comb.valueTypes typeKey atomic })
            else
              let isClass := cb.classExists name
              let loopRes : Option (List TypeKey) :=
                comb.namedObjectTypes.foldl (fun st p =>
                  match st with
                  | none => none
                  | some toRemove =>
                    match p.2 with
                    | .tnamedObject existingName _ _ =>
                      if cb.classExists existingName then
                        if cb.classExtendsOrImplements existingName name then
                          some (toRemove ++ [p.1])
                        else if isClass && cb.classExtends name existingName then none
                        else some toRemove
                      else
                        if cb.interfaceExtends existingName name then
                          some (toRemove ++ [TypeKey.knamed existingName])
                        else if isClass && cb.classImplements name existingName then none
                        else if !isClass && cb.interfaceExtends name existingName then none
                        else some toRemove
                    | _ => some toRemove) (some [])
              match loopRes with
              | none => some (.cont comb)
              | some toRemove =>
                some (.cont { comb with namedObjectTypes := toRemove.foldl alRemove (alInsert comb.namedObjectTypes typeKey atomic) })
    | .tenumLiteralCase enumName memberName _ =>
      if comb.enumTypes.contains enumName then some (.cont comb)
      else
        let cur := (alGet comb.enumValueTypes enumName).getD []
        some (.cont { comb with enumValueTypes := alInsert comb.enumValueTypes enumName (listAddSet cur memberName) })
    | .tenum name =>
      some (.cont { comb with enumValueTypes := alRemove comb.enumValueTypes name, enumTypes := listAddSet comb.enumTypes name })
    | .tscalar =>
      some (.cont { comb with literalStrings := [], literalInts := [], valueTypes := alInsert (alRemove (alRemove (alRemove (alRemove (alRemove (alRemove (alRemove (alRemove (alRemove comb.valueTypes (.kstr "string")) (.kstr "int")) (.kstr "bool")) (.kstr "false")) (.kstr "true")) (.kstr "float")) (.kstr "arraykey")) (.kstr "num")) (.kstr "numeric")) typeKey atomic })
    | .tarraykey =>
      if alContains comb.valueTypes (.kstr "scalar") then some (.cont comb)
      else
        some (.cont { comb with literalStrings := [], literalInts := [], valueTypes := alInsert (alRemove (alRemove comb.valueTypes (.kstr "string")) (.kstr "int")) typeKey atomic })
    | .tnum =>
      if alContains comb.valueTypes (.kstr "scalar") then some (.cont comb)
      else
        some (.cont { comb with literalInts := [], valueTypes := alInsert (alRemove (alRemove comb.valueTypes (.kstr "int")) (.kstr "float")) typeKey atomic })
    | .tstring =>
      if alContains comb.valueTypes (.kstr "arraykey") ||
          alContains comb.valueTypes (.kstr "scalar") then some (.cont comb)
      else
        some (.cont { comb with literalStrings := [], valueTypes := alInsert comb.valueTypes typeKey atomic })
    | .tstringWithFlags isTruthy isNonempty isNonspecific =>
      if alContains comb.valueTypes (.kstr "arraykey") ||
          alContains comb.valueTypes (.kstr "scalar") then some (.cont comb)
      else
        match alGet comb.valueTypes (.kstr "string") with
        | some .tstring => some (.cont comb)
        | some (.tstringWithFlags et en ens) =>
          if et == isTruthy && en == isNonempty && ens == isNonspecific then
            some (.cont comb)
          else
            some (.cont { comb with valueTypes := alInsert comb.valueTypes (.kstr "string") (.tstringWithFlags (et && isTruthy) (en && isNonempty) (ens && isNonspecific)) })
        | some _ => some (.cont comb)
        | none =>
          let adj : Bool × Bool × Bool :=
            if isTruthy || isNonempty then
              comb.literalStrings.foldl (fun (st : Bool × Bool × Bool) p =>
                if st.2.2 then st
                else
                  match p.2 with
                  | .tliteralString v =>
                    if v == "" then (false, false, true)
                    else if v == "0" then (false, st.2.1, st.2.2)
                    else st
                  | _ => st) (isTruthy, isNonempty, false)
            else (isTruthy, isNonempty, false)
          some (.cont { comb with valueTypes := alInsert comb.valueTypes (.kstr "string") (if !adj.1 && !adj.2.1 && !isNonspecific then .tstring else .tstringWithFlags adj.1 adj.2.1 isNonspecific), literalStrings := [] })
    | .tliteralString v =>
      if alContains comb.valueTypes (.kstr "arraykey") ||
          alContains comb.valueTypes (.kstr "scalar") then some (.cont comb)
      else
        match alGet comb.valueTypes (.kstr "string") with
        | some .tstring => some (.cont comb)
        | some (.tstringWithFlags t ne ns) =>
          let t2 := if v == "" then false else if v == "0" then false else t
          let ne2 := if v == "" then false else ne
          some (.cont { comb with valueTypes := alInsert comb.valueTypes (.kstr "string") (if !t2 && !ne2 && !ns then .tstring else .tstringWithFlags t2 ne2 ns) })
        | some _ => some (.cont comb)
        | none =>
          if comb.literalStrings.length > 20 then
            some (.cont { comb with literalStrings := [], valueTypes := alInsert comb.valueTypes (.kstr "string") (.tstringWithFlags true false true) })
          else
            some (.cont { comb with literalStrings := alInsert comb.literalStrings typeKey atomic })
    | .tint =>
      if alContains comb.valueTypes (.kstr "arraykey") ||
          alContains comb.valueTypes (.kstr "scalar") ||
          alContains comb.valueTypes (.kstr "num") then some (.cont comb)
      else
        some (.cont { comb with literalInts := [], valueTypes := alInsert comb.valueTypes typeKey atomic })
    | .tliteralInt _ =>
      if alContains comb.valueTypes (.kstr "arraykey") ||
          alContains comb.valueTypes (.kstr "scalar") ||
          alContains comb.valueTypes (.kstr "num") then some (.cont comb)
      else
        match alGet comb.valueTypes (.kstr "int") with
        | some .tint => some (.cont comb)
        | some _ => some (.cont comb)
        | none =>
          if comb.literalInts.length > 20 then
            some (.cont { comb with literalInts := [], valueTypes := alInsert comb.valueTypes (.kstr "int") .tint })
          else
            some (.cont { comb with literalInts := alInsert comb.literalInts typeKey atomic })
    | .tfloat =>
      if alContains comb.valueTypes (.kstr "num") ||
          alContains comb.valueTypes (.kstr "scalar") then some (.cont comb)
      else
        some (.cont { comb with valueTypes := alInsert comb.valueTypes typeKey atomic })
    | _ =>
      some (.cont { comb with valueTypes := alInsert comb.valueTypes typeKey atomic })

/-- Model of `combine` (`type_combiner.rs` lines 11-243): absorb every atomic
into a fresh accumulator via `scrapeCore`, then assemble the canonical list.
The fuel bounds the nesting depth of container type parameters. -/
def combine : Nat → List TAtomic → Option CodebaseInfo → Bool → Option (List TAtomic)
  | 0, _, _, _ => none
  | f + 1, types, codebase, overwriteEmptyArray =>
    if types.length == 1 then some types
    else
      match scrapeList (fun a c =>
          scrapeCore f (fun ts ow2 => combine f ts codebase ow2) (taListBeq f)
            a c codebase overwriteEmptyArray)
          types TypeCombination.new with
      | none => none
      | some (.done r) => some r
      | some (.cont comb) => combineFinish comb

/-- Model of `scrape_type_properties` at a given fuel. -/
def scrapeTypeProperties (fuel : Nat) (atomic : TAtomic) (comb1 : TypeCombination)
    (codebase : Option CodebaseInfo) (overwriteEmptyArray : Bool) : Option ScrapeOut :=
  scrapeCore fuel (fun ts ow2 => combine fuel ts codebase ow2) (taListBeq fuel)
    atomic comb1 codebase overwriteEmptyArray

/-- Model of `hakana_type::combine_union_types` at the level of nested
unions.  Modelled from the spec: the union of two unions is the combination
of their atomic lists. -/
def combineUnionTypes (fuel : Nat) (a b : List TAtomic)
    (codebase : Option CodebaseInfo) (overwriteEmptyArray : Bool) : Option (List TAtomic) :=
  combine fuel (a ++ b) codebase overwriteEmptyArray

set_option maxHeartbeats 2000000 in
example : combine 10 [.ttrue, .tfalse] none false = some [.tbool] := rfl
example : combine 10 [.tfalse, .tbool] none false = some [.tbool] := rfl
example : combine 10 [.ttrue, .tfalse, .tnull] none false = some [.tbool] := rfl
example : combine 10 [.tliteralInt 1, .tliteralInt 2, .tliteralInt 3] none false =
    some [.tliteralInt 1, .tliteralInt 2, .tliteralInt 3] := rfl

/-- Two's-complement wrap-around of a mathematical integer into the `i64`
range, the release-mode overflow behaviour of the literal arithmetic. -/
def wrap64 (z : Int) : Int := (z + 2 ^ 63) % 2 ^ 64 - 2 ^ 63

/-- Unsigned 64-bit representative of an `i64` value. -/
def u64 (z : Int) : Nat := (z % 2 ^ 64).toNat

/-- Signed reading of an unsigned 64-bit value. -/
def s64 (n : Nat) : Int := if n < 2 ^ 63 then (n : Int) else (n : Int) - 2 ^ 64

/-- Bitwise and on `i64` values. -/
def i64And (a b : Int) : Int := s64 (Nat.land (u64 a) (u64 b))

/-- Bitwise or on `i64` values. -/
def i64Or (a b : Int) : Int := s64 (Nat.lor (u64 a) (u64 b))

/-- The binary operators dispatched by the arithmetic analyzer
(`oxidized::ast_defs::Bop`); `otherArith` stands for the remaining
arithmetic operators, which the literal branch sends to `int`. -/
inductive Bop : Type where
  | plus : Bop
  | minus : Bop
  | amp : Bop
  | bar : Bop
  | ltlt : Bop
  | gtgt : Bop
  | percent : Bop
  | slash : Bop
  | otherArith : Bop
  deriving DecidableEq, Repr

/-- Evaluation of one literal-by-literal arithmetic operator on `i64`
payloads (`arithmetic_analyzer.rs` lines 63-83).  `none` models an abort of
the analyzer process: remainder by zero always aborts, as does the remainder
overflow `i64::MIN % -1` (Rust's `%` panics on both in every build profile);
a shift amount outside `[0, 64)` is an arithmetic overflow and aborts under
Rust's overflow checks. -/
def evalArith : Bop → Int → Int → Option Int
  | .plus, a, b => some (wrap64 (a + b))
  | .minus, a, b => some (wrap64 (a - b))
  | .amp, a, b => some (i64And a b)
  | .bar, a, b => some (i64Or a b)
  | .ltlt, a, b =>
    if 0 ≤ b ∧ b < 64 then some (wrap64 (a * 2 ^ b.toNat)) else none
  | .gtgt, a, b =>
    if 0 ≤ b ∧ b < 64 then some (Int.fdiv a (2 ^ b.toNat)) else none
  | .percent, a, b =>
    if b = 0 then none
    else if a = -(2 ^ 63) ∧ b = -1 then none
    else some (wrap64 (Int.tmod a b))
  | _, _, _ => none

/-- Result atomic for one pair of operand atomics (`arithmetic_analyzer.rs`
lines 58-95): literal ints evaluate exactly, int-ish pairs give `int`
(`num` for division), anything else gives `float`. -/
def arithmeticPairResult (op : Bop) (x y : TAtomic) : Option TAtomic :=
  match x, y with
  | .tliteralInt v1, .tliteralInt v2 =>
    (match op with
    | .slash => some .tnum
    | .otherArith => some .tint
    | _ => (evalArith op v1 v2).map (fun v => .tliteralInt v))
  | .tint, .tint | .tint, .tliteralInt _ | .tliteralInt _, .tint =>
    (match op with
    | .slash => some .tnum
    | _ => some .tint)
  | _, _ => some .tfloat

/-- Coercion applied to each operand atomic (`arithmetic_analyzer.rs` lines
43-56): a `false` operand becomes the literal `0` unless its union carries
`ignore_falsable_issues`, in which case it is skipped (`none`). -/
def coerceAtomic (ignoreFalsable : Bool) (a : TAtomic) : Option TAtomic :=
  match a with
  | .tfalse => if ignoreFalsable then none else some (.tliteralInt 0)
  | _ => some a

/-- The cross product of the operand atomics (`arithmetic_analyzer.rs` lines
39-97). -/
def arithmeticResults (op : Bop) (e1 e2 : TUnion) : Option (List TAtomic) :=
  e1.types.foldl (fun acc a1 =>
    match acc with
    | none => none
    | some rs =>
      match coerceAtomic e1.ignoreFalsableIssues a1 with
      | none => some rs
      | some x =>
        e2.types.foldl (fun acc2 a2 =>
          match acc2 with
          | none => none
          | some rs2 =>
            match coerceAtomic e2.ignoreFalsableIssues a2 with
            | none => some rs2
            | some y =>
              match arithmeticPairResult op x y with
              | none => none
              | some r => some (rs2 ++ [r])) (some rs)) (some [])

/-- Model of the arithmetic analyzer's result type (`arithmetic_analyzer.rs`
lines 99-103): the cross-product results, combined through the type combiner
when there is more than one (with no codebase and `overwrite_empty_array`
false).  The data-flow decoration of `assign_arithmetic_type` is not part of
the computed union and is not modelled. -/
def arithmeticAnalyze (fuel : Nat) (op : Bop) (e1 e2 : TUnion) : Option (List TAtomic) :=
  match arithmeticResults op e1 e2 with
  | none => none
  | some results =>
    if results.length == 1 then some results
    else combine fuel results none false

example : arithmeticAnalyze 10 .plus (TUnion.new [.tliteralInt 2]) (TUnion.new [.tliteralInt 3]) =
    some [.tliteralInt 5] := rfl
example : arithmeticAnalyze 10 .slash (TUnion.new [.tint]) (TUnion.new [.tliteralInt 3]) =
    some [.tnum] := rfl
example : arithmeticAnalyze 10 .percent (TUnion.new [.tliteralInt 1]) (TUnion.new [.tliteralInt 0]) =
    none := rfl

/-- The `nothing` union (`get_nothing()`). -/
def getNothing : TUnion := TUnion.new [.tnothing]

/-- The any-mixed union (`get_mixed_any()`). -/
def getMixedAny : TUnion := TUnion.new [.tmixedAny]

/-- Modelled from the spec (impossibility detection, section 4.3): the
reconciler's `trigger_issue_for_impossible` emits a `RedundantTypeComparison`
issue when nothing was removed by an assertion that should narrow, and a
`TypeDoesNotContain` issue otherwise.  The theorems below depend only on
whether an issue is emitted. -/
def triggerIssueForImpossible (redundant : Bool) : IssueKind :=
  if redundant then .redundantTypeComparison else .typeDoesNotContain

/-- Modelled from the spec (section 4.2): the nonempty intersection of two
atomics, defined for the primitive, literal and mixed atomics the embedded
reconcilers feed to it; a literal intersects its general type and `mixed`
absorbs. -/
def atomicIntersect (fuel : Nat) (x y : TAtomic) : Option TAtomic :=
  if taBeq fuel x y then some x else
  match x, y with
  | .tliteralInt v, .tint => some (.tliteralInt v)
  | .tint, .tliteralInt v => some (.tliteralInt v)
  | .tliteralString s, .tstring => some (.tliteralString s)
  | .tstring, .tliteralString s => some (.tliteralString s)
  | .ttrue, .tbool => some .ttrue
  | .tbool, .ttrue => some .ttrue
  | .tfalse, .tbool => some .tfalse
  | .tbool, .tfalse => some .tfalse
  | .tint, .tarraykey => some .tint
  | .tarraykey, .tint => some .tint
  | .tstring, .tarraykey => some .tstring
  | .tarraykey, .tstring => some .tstring
  | .tliteralInt v, .tarraykey => some (.tliteralInt v)
  | .tarraykey, .tliteralInt v => some (.tliteralInt v)
  | .tliteralString s, .tarraykey => some (.tliteralString s)
  | .tarraykey, .tliteralString s => some (.tliteralString s)
  | .tmixed, y2 => some y2
  | x2, .tmixed => some x2
  | _, _ => none

/-- Modelled from the spec (section 4.3, `InArray`): the intersection of two
unions, `none` when it is empty.  Each atomic of the asserted union
contributes its first nonempty intersection with an atomic of the existing
union. -/
def intersectUnionTypes (fuel : Nat) (typedValue existing : TUnion) : Option TUnion :=
  let atoms := typedValue.types.filterMap (fun x =>
    (existing.types.filterMap (fun y => atomicIntersect fuel x y)).head?)
  if atoms.isEmpty then none else some (TUnion.new atoms)

/-- Modelled from the spec (section 4.2): `can_expression_types_be_identical`
is true whenever the intersection of the two unions is not `Nothing`. -/
def canExpressionTypesBeIdentical (fuel : Nat) (a b : List TAtomic) : Bool :=
  a.any (fun x => b.any (fun y => (atomicIntersect fuel x y).isSome))

/-- Modelled from the spec (section 4.3): `subtract_null` removes `null`
from a union, refining `mixed` to nonnull mixed; subtracting `null` from
`null` alone leaves `nothing`. -/
def subtractNull (l : List TAtomic) : List TAtomic :=
  let kept := l.filterMap (fun a =>
    match a with
    | .tnull => none
    | .tmixed => some (.tmixedWithFlags false false false true)
    | other => some other)
  if kept.isEmpty then [.tnothing] else kept

/-- Model of `reconcile_in_array` (`simple_assertion_reconciler.rs` lines
1720-1757): return the intersection when it is nonempty; otherwise report an
impossibility (when both a variable key and a position are available) and
return the any-mixed union. -/
def reconcileInArray (fuel : Nat) (typedValue existing : TUnion)
    (hasKey hasPos : Bool) : TUnion × List IssueKind :=
  match intersectUnionTypes fuel typedValue existing with
  | some intersection => (intersection, [])
  | none =>
    (getMixedAny,
      if hasKey && hasPos then [triggerIssueForImpossible true] else [])

/-- One-atomic transformation applied by `reconcile_isset`: `null` is
dropped, `mixed` and nullable mixed-with-flags become nonnull mixed,
everything else is kept. -/
def issetTransform : TAtomic → Option TAtomic
  | .tnull => none
  | .tmixed => some (.tmixedWithFlags false false false true)
  | .tmixedWithFlags isAny false _ false => some (.tmixedWithFlags isAny false false true)
  | other => some other

/-- Whether `reconcile_isset` counts an atomic as removed or refined. -/
def issetRemoves : TAtomic → Bool
  | .tnull => true
  | .tmixed => true
  | .tmixedWithFlags _ false _ false => true
  | _ => false

/-- Model of `reconcile_isset` (`simple_assertion_reconciler.rs` lines
1371-1450). -/
def reconcileIsset (existing : TUnion) (possiblyUndefined : Bool)
    (hasKey hasPos : Bool) (insideLoop : Bool) : TUnion × List IssueKind :=
  let didRemove0 := possiblyUndefined || existing.possiblyUndefinedFromTry
  let acceptable := existing.types.filterMap issetTransform
  let didRemove := didRemove0 || existing.types.any issetRemoves
  let issues :=
    if !didRemove || acceptable.isEmpty then
      (if hasKey && hasPos then [triggerIssueForImpossible (!didRemove)] else [])
    else []
  if acceptable.isEmpty then (getNothing, issues)
  else
    let newVar : TUnion :=
      { existing with possiblyUndefinedFromTry := false, types := acceptable }
    if listIsNothing newVar.types then
      ({ newVar with types := [if !insideLoop then .tmixed else .tmixedFromLoopIsset] },
        issues)
    else (newVar, issues)

/-- The generic atomic a dictionary key asserts for the key slot
(`simple_assertion_reconciler.rs` lines 1806-1815). -/
def dictKeyGenericType : DictKey → TAtomic
  | .dint _ => .tint
  | .dstr _ => .tstring
  | .denum a b => .tenumLiteralCase a b none

/-- Model of `reconcile_has_array_key` (`simple_assertion_reconciler.rs`
lines 1759-1940).  The generic-parameter case recurses into the parameter's
upper bound at decremented fuel; `replace_template_extends` is modelled from
the spec as rebuilding the parameter with the narrowed bound. -/
def reconcileHasArrayKey : Nat → TUnion → DictKey → Bool → Bool → Bool →
    Option (TUnion × List IssueKind)
  | 0, _, _, _, _, _ => none
  | f + 1, existing, keyName, hasKey, hasPos, possiblyUndefined =>
    let folded : Option (List TAtomic × Bool) :=
      existing.types.foldl (fun st atomic =>
        match st with
        | none => none
        | some (acceptable, didRemove) =>
          match atomic with
          | .tdict knownItems params nonEmpty shapeName =>
            (match knownItems with
            | some items =>
              (match alGet items keyName with
              | some (pu, ty) =>
                if pu then
                  some (acceptable ++
                    [.tdict (some (alInsert items keyName (false, ty))) params
                      nonEmpty shapeName], true)
                else some (acceptable ++ [atomic], didRemove)
              | none =>
                match params with
                | some (_, vp) =>
                  some (acceptable ++
                    [.tdict (some (alInsert items keyName (false, vp))) params
                      nonEmpty shapeName], true)
                | none => some (acceptable, true))
            | none =>
              match params with
              | some (kp, vp) =>
                if canExpressionTypesBeIdentical f [dictKeyGenericType keyName] kp then
                  some (acceptable ++
                    [.tdict (some [(keyName, false, vp)]) params nonEmpty shapeName],
                    true)
                else some (acceptable, true)
              | none => some (acceptable, true))
          | .tvec knownItems typeParam nonEmpty knownCount =>
            (match keyName with
            | .dint i =>
              (match knownItems with
              | some items =>
                (match alGet items i with
                | some (pu, ty) =>
                  if pu then
                    some (acceptable ++
                      [.tvec (some (alInsert items i (false, ty))) typeParam
                        nonEmpty knownCount], true)
                  else some (acceptable ++ [atomic], didRemove)
                | none =>
                  if !(listIsNothing typeParam) then
                    some (acceptable ++
                      [.tvec (some (alInsert items i (false, typeParam))) typeParam
                        nonEmpty knownCount], true)
                  else some (acceptable, true))
              | none =>
                if !(listIsNothing typeParam) then
                  some (acceptable ++
                    [.tvec (some [(i, false, typeParam)]) typeParam nonEmpty
                      knownCount], true)
                else some (acceptable ++ [atomic], didRemove))
            | _ => some (acceptable, true))
          | .tgenericParam n asType d =>
            if listIsMixed asType then some (acceptable ++ [atomic], true)
            else
              (match reconcileHasArrayKey f (TUnion.new asType) keyName false false
                  possiblyUndefined with
              | none => none
              | some (ru, _) =>
                some (acceptable ++ [.tgenericParam n ru.types d], true))
          | .tmixed | .tmixedWithFlags _ _ _ _ | .tmixedFromLoopIsset
          | .tmixedAny | .tnonnullMixed | .ttruthyMixed | .tfalsyMixed
          | .ttypeAlias _ =>
            some (acceptable ++ [atomic], true)
          | .tnamedObject _ _ _ => some (acceptable ++ [atomic], true)
          | .tkeyset _ => some (acceptable ++ [atomic], true)
          | _ => some (acceptable, true)) (some ([], possiblyUndefined))
    match folded with
    | none => none
    | some (acceptable, didRemove) =>
      let issues :=
        if !didRemove || acceptable.isEmpty then
          (if hasKey && hasPos then [triggerIssueForImpossible (!didRemove)] else [])
        else []
      if acceptable.isEmpty then some (getNothing, issues)
      else some ({ existing with types := acceptable }, issues)

/-- Model of `reconcile_has_nonnull_entry_for_key`
(`simple_assertion_reconciler.rs` lines 1942-2201): like
`reconcile_has_array_key` but the matching slot additionally has `null`
subtracted from its union. -/
def reconcileHasNonnullEntryForKey : Nat → TUnion → DictKey → Bool → Bool → Bool →
    Option (TUnion × List IssueKind)
  | 0, _, _, _, _, _ => none
  | f + 1, existing, keyName, hasKey, hasPos, possiblyUndefined =>
    let folded : Option (List TAtomic × Bool) :=
      existing.types.foldl (fun st atomic =>
        match st with
        | none => none
        | some (acceptable, didRemove) =>
          match atomic with
          | .tdict knownItems params nonEmpty shapeName =>
            (match knownItems with
            | some items =>
              (match alGet items keyName with
              | some (pu, ty) =>
                let nonnull := subtractNull ty
                if pu then
                  some (acceptable ++
                    [.tdict (some (alInsert items keyName (false, nonnull))) params
                      nonEmpty shapeName], true)
                else if !(taListBeq f ty nonnull) then
                  some (acceptable ++
                    [.tdict (some (alInsert items keyName (pu, nonnull))) params
                      nonEmpty shapeName], true)
                else some (acceptable ++ [atomic], didRemove)
              | none =>
                match params with
                | some (_, vp) =>
                  some (acceptable ++
                    [.tdict (some (alInsert items keyName (false, subtractNull vp)))
                      params nonEmpty shapeName], true)
                | none => some (acceptable, true))
            | none =>
              match params with
              | some (kp, vp) =>
                if canExpressionTypesBeIdentical f [dictKeyGenericType keyName] kp then
                  some (acceptable ++
                    [.tdict (some [(keyName, false, subtractNull vp)]) params
                      nonEmpty shapeName], true)
                else some (acceptable, true)
              | none => some (acceptable, true))
          | .tvec knownItems typeParam nonEmpty knownCount =>
            (match keyName with
            | .dint i =>
              (match knownItems with
              | some items =>
                (match alGet items i with
                | some (pu, ty) =>
                  let nonnull := subtractNull ty
                  if pu then
                    some (acceptable ++
                      [.tvec (some (alInsert items i (false, nonnull))) typeParam
                        nonEmpty knownCount], true)
                  else if !(taListBeq f ty nonnull) then
                    some (acceptable ++
                      [.tvec (some (alInsert items i (pu, nonnull))) typeParam
                        nonEmpty knownCount], true)
                  else some (acceptable ++ [atomic], didRemove)
                | none =>
                  if !(listIsNothing typeParam) then
                    some (acceptable ++
                      [.tvec (some (alInsert items i (false, subtractNull typeParam)))
                        typeParam nonEmpty knownCount], true)
                  else some (acceptable, true))
              | none =>
                if !(listIsNothing typeParam) then
                  some (acceptable ++
                    [.tvec (some [(i, false, subtractNull typeParam)]) typeParam
                      nonEmpty knownCount], true)
                else some (acceptable ++ [atomic], didRemove))
            | _ => some (acceptable, true))
          | .tgenericParam n asType d =>
            if listIsMixed asType then some (acceptable ++ [atomic], true)
            else
              (match reconcileHasNonnullEntryForKey f (TUnion.new asType) keyName
                  false false possiblyUndefined with
              | none => none
              | some (ru, _) =>
                some (acceptable ++ [.tgenericParam n ru.types d], true))
          | .tmixed | .tmixedWithFlags _ _ _ _ | .tmixedFromLoopIsset
          | .tmixedAny | .tnonnullMixed | .ttruthyMixed | .tfalsyMixed
          | .ttypeAlias _ =>
            some (acceptable ++ [atomic], true)
          | .tnamedObject _ _ _ => some (acceptable ++ [atomic], true)
          | .tkeyset _ => some (acceptable ++ [atomic], true)
          | .tstring =>
            (match keyName with
            | .dint _ => some (acceptable ++ [atomic], true)
            | _ => some (acceptable, true))
          | .tstringWithFlags _ _ _ =>
            (match keyName with
            | .dint _ => some (acceptable ++ [atomic], true)
            | _ => some (acceptable, true))
          | _ => some (acceptable, true)) (some ([], possiblyUndefined))
    match folded with
    | none => none
    | some (acceptable, didRemove) =>
      let issues :=
        if !didRemove || acceptable.isEmpty then
          (if hasKey && hasPos then [triggerIssueForImpossible (!didRemove)] else [])
        else []
      if acceptable.isEmpty then some (getNothing, issues)
      else some ({ existing with types := acceptable }, issues)

example :
    reconcileIsset (TUnion.new [.tint, .tstring, .tnull]) false true true false =
      (TUnion.new [.tint, .tstring], []) := rfl

example :
    reconcileHasNonnullEntryForKey 10
      (TUnion.new [.tdict none (some ([.tstring], [.tint, .tnull])) false none])
      (.dstr "k") true true false =
    some (TUnion.new
      [.tdict (some [(.dstr "k", false, [.tint])]) (some ([.tstring], [.tint, .tnull]))
        false none], []) := rfl

/-- The configuration surface consumed at issue-emission time: per-file
allow rules, the global emission filter, and the migration symbol list. -/
structure Config : Type where
  allowIssueKindInFile : IssueKind → String → Bool := fun _ _ => true
  canAddIssue : Issue → Bool := fun _ => true
  migrationSymbols : List (String × String) := []

/-- Modelled from the spec (section 7): `maybe_add_issue` appends the issue
unless configuration suppresses it. -/
def maybeAddIssue (cfg : Config) (filePath : String) (issue : Issue)
    (issues : List Issue) : List Issue :=
  if cfg.allowIssueKindInFile issue.kind filePath && cfg.canAddIssue issue then
    issues ++ [issue]
  else issues

/-- The definition AST nodes dispatched by `def_analyzer.rs`, each carrying
the position data the analyzer reads. -/
inductive Def : Type where
  | dfun : Nat → Def
  | dclass : Nat → Def
  | dtypedef : Def
  | dnamespaceUse : Def
  | dstmt : Nat → Def
  | dconstant : Nat → Def
  | dnamespace : Def
  | dsetNamespaceEnv : Def
  | dfileAttributes : Def
  | dmodule : Nat → Def
  | dsetModule : Nat → Def
  | dpackage : Nat → Def
  deriving DecidableEq, Repr

/-- An abort of the definition analyzer; `todoUnimplemented` models the
`todo!()` macro, which terminates the process. -/
inductive AnalyzerAbort : Type where
  | todoUnimplemented : AnalyzerAbort
  deriving DecidableEq, Repr

/-- Position of an offset within the analyzed file (model of `get_hpos`). -/
def hposOfOffset (off : Nat) : HPos := { startOffset := off, endOffset := off }

/-- Model of `def_analyzer::analyze` (`def_analyzer.rs` lines 14-99)
restricted to the issues the dispatcher emits itself: the function, class,
statement and constant branches delegate to analyzers outside this
development and are modelled as emitting nothing here.  `Module` and
`SetModule` emit an `UnrecognizedStatement` warning through
`maybe_add_issue`; `Package` hits `todo!()` and aborts. -/
def defAnalyze (cfg : Config) (filePathActual : String) (d : Def) :
    Except AnalyzerAbort (List Issue) :=
  match d with
  | .dfun _ => .ok []
  | .dclass _ => .ok []
  | .dtypedef | .dnamespaceUse => .ok []
  | .dstmt _ => .ok []
  | .dconstant _ => .ok []
  | .dnamespace | .dsetNamespaceEnv | .dfileAttributes => .ok []
  | .dmodule span =>
    .ok (maybeAddIssue cfg filePathActual
      { kind := .unrecognizedStatement, message := "Unrecognized statement",
        pos := hposOfOffset span, functionlikeId := none } [])
  | .dsetModule pos =>
    .ok (maybeAddIssue cfg filePathActual
      { kind := .unrecognizedStatement, message := "Unrecognized statement",
        pos := hposOfOffset pos, functionlikeId := none } [])
  | .dpackage _ => .error .todoUnimplemented

/-- Whether the first list is a prefix-aligned occurrence somewhere inside
the second (helper for the substring test). -/
def charsContain (pat : List Char) : List Char → Bool
  | [] => pat.isEmpty
  | c :: rest => List.isPrefixOf pat (c :: rest) || charsContain pat rest

/-- Substring occurrence test, the model of `str::matches(..).count() > 0`
used by the ignored-path filter. -/
def strContainsSubstr (hay pat : String) : Bool :=
  charsContain pat.toList hay.toList

/-- A textual replacement recorded for the migration rewriter: file path,
definition span, and the `TrimPrecedingWhitespace` argument. -/
structure UnusedReplacement : Type where
  filePath : String
  span : Nat × Nat
  trimFrom : Nat
  deriving DecidableEq, Repr

/-- The contribution of one function-like entry to the function loop of
`find_unused_definitions` (`unused_symbols.rs` lines 27-94): the issues and
replacements it appends.  `none` models the `unwrap` abort on a missing name
location. -/
def unusedFunctionEntry (codebase : CodebaseInfo) (cfg : Config)
    (ignoredPaths : Option (List String))
    (referencedSymbolsAndMembers : List (StrId × StrId))
    (functionName : StrId) (info : FunctionLikeInfo) :
    Option (List Issue × List UnusedReplacement) :=
  if info.userDefined && !info.dynamicallyCallable && !info.generated then
    match info.nameLocation with
    | none => none
    | some pos =>
      let filePath := codebase.internerLookup pos.filePath
      if (match ignoredPaths with
          | some ips => ips.any (fun ip => strContainsSubstr filePath ip)
          | none => false) then
        some ([], [])
      else if !(referencedSymbolsAndMembers.contains (functionName, StrId.empty)) then
        if (match info.suppressedIssues with
            | some si => si.contains IssueKind.unusedFunction
            | none => false) then
          some ([], [])
        else if !(cfg.allowIssueKindInFile .unusedFunction filePath) then
          some ([], [])
        else
          let replacements :=
            if cfg.migrationSymbols.contains
                ("unused_symbol", codebase.internerLookup functionName) then
              [{ filePath := codebase.internerLookup pos.filePath,
                 span := (info.defLocation.startOffset, info.defLocation.endOffset),
                 trimFrom :=
                   info.defLocation.startOffset - (info.defLocation.startColumn - 1) }]
            else []
          let issue : Issue :=
            { kind := .unusedFunction,
              message := "Unused function " ++ codebase.internerLookup functionName,
              pos := pos,
              functionlikeId := some (.function functionName) }
          if cfg.canAddIssue issue then some ([issue], replacements)
          else some ([], replacements)
      else some ([], [])
  else some ([], [])

/-- Model of the function loop of `find_unused_definitions`
(`unused_symbols.rs` lines 27-94): fold every function-like entry's
contribution into the emitted issue and replacement lists. -/
def findUnusedFunctions (codebase : CodebaseInfo) (cfg : Config)
    (ignoredPaths : Option (List String))
    (referencedSymbolsAndMembers : List (StrId × StrId)) :
    Option (List Issue × List UnusedReplacement) :=
  codebase.functionlikeInfos.foldl (fun st entry =>
    match st with
    | none => none
    | some (issues, replacements) =>
      match unusedFunctionEntry codebase cfg ignoredPaths referencedSymbolsAndMembers
          entry.1 entry.2 with
      | none => none
      | some (di, dr) => some (issues ++ di, replacements ++ dr)) (some ([], []))

/-- Calling context of a reference (model of `FunctionContext`): the
function-like being analyzed, or the class whose signature is being read. -/
structure FunctionContext : Type where
  callingFunctionlikeId : Option FunctionLikeIdentifier := none
  callingClass : Option StrId := none
  deriving DecidableEq, Repr

/-- The symbol reference tracker (model of `SymbolReferences`,
`symbol_references.rs` lines 16-43): per referencing symbol or member, the
set of referenced symbols and members, split into body and signature tables,
plus the overridden-member and return-value tables. -/
structure SymbolReferences : Type where
  symbolReferencesToSymbols : List ((StrId × StrId) × List (StrId × StrId)) := []
  symbolReferencesToSymbolsInSignature :
    List ((StrId × StrId) × List (StrId × StrId)) := []
  symbolReferencesToOverriddenMembers :
    List ((StrId × StrId) × List (StrId × StrId)) := []
  functionlikeReferencesToFunctionlikeReturns :
    List (FunctionLikeIdentifier × List FunctionLikeIdentifier) := []

/-- Model of `SymbolReferences::new`. -/
def SymbolReferences.new : SymbolReferences := {}

/-- Insert a referenced pair into one table entry's set. -/
def srEntryInsert (m : List ((StrId × StrId) × List (StrId × StrId)))
    (k : StrId × StrId) (v : StrId × StrId) :
    List ((StrId × StrId) × List (StrId × StrId)) :=
  alInsert m k (listAddSet ((alGet m k).getD []) v)

/-- Model of `add_symbol_reference_to_symbol` (lines 70-87). -/
def SymbolReferences.addSymbolReferenceToSymbol (s : SymbolReferences)
    (referencingSymbol : StrId) (symbol : StrId) (inSignature : Bool) :
    SymbolReferences :=
  if inSignature then
    { s with symbolReferencesToSymbolsInSignature := srEntryInsert s.symbolReferencesToSymbolsInSignature (referencingSymbol, StrId.empty) (symbol, StrId.empty) }
  else
    { s with symbolReferencesToSymbols := srEntryInsert s.symbolReferencesToSymbols (referencingSymbol, StrId.empty) (symbol, StrId.empty) }

/-- Model of `add_symbol_reference_to_class_member` (lines 45-68). -/
def SymbolReferences.addSymbolReferenceToClassMember (s : SymbolReferences)
    (referencingSymbol : StrId) (classMember : StrId × StrId)
    (inSignature : Bool) : SymbolReferences :=
  let s := s.addSymbolReferenceToSymbol referencingSymbol classMember.1 inSignature
  if inSignature then
    { s with symbolReferencesToSymbolsInSignature := srEntryInsert s.symbolReferencesToSymbolsInSignature (referencingSymbol, StrId.empty) classMember }
  else
    { s with symbolReferencesToSymbols := srEntryInsert s.symbolReferencesToSymbols (referencingSymbol, StrId.empty) classMember }

/-- Model of `add_class_member_reference_to_class_member` (lines 89-112). -/
def SymbolReferences.addClassMemberReferenceToClassMember (s : SymbolReferences)
    (referencingClassMember : StrId × StrId) (classMember : StrId × StrId)
    (inSignature : Bool) : SymbolReferences :=
  let s := s.addSymbolReferenceToSymbol referencingClassMember.1 classMember.1
    inSignature
  if inSignature then
    { s with symbolReferencesToSymbolsInSignature := srEntryInsert s.symbolReferencesToSymbolsInSignature referencingClassMember classMember }
  else
    { s with symbolReferencesToSymbols := srEntryInsert s.symbolReferencesToSymbols referencingClassMember classMember }

/-- Model of `add_class_member_reference_to_symbol` (lines 114-137). -/
def SymbolReferences.addClassMemberReferenceToSymbol (s : SymbolReferences)
    (referencingClassMember : StrId × StrId) (symbol : StrId)
    (inSignature : Bool) : SymbolReferences :=
  let s := s.addSymbolReferenceToSymbol referencingClassMember.1 symbol inSignature
  if inSignature then
    { s with symbolReferencesToSymbolsInSignature := srEntryInsert s.symbolReferencesToSymbolsInSignature referencingClassMember (symbol, StrId.empty) }
  else
    { s with symbolReferencesToSymbols := srEntryInsert s.symbolReferencesToSymbols referencingClassMember (symbol, StrId.empty) }

/-- Model of `add_reference_to_class_member` (lines 139-167). -/
def SymbolReferences.addReferenceToClassMember (s : SymbolReferences)
    (ctx : FunctionContext) (classMember : StrId × StrId) (inSignature : Bool) :
    SymbolReferences :=
  match ctx.callingFunctionlikeId with
  | some (.function functionName) =>
    s.addSymbolReferenceToClassMember functionName classMember inSignature
  | some (.method className functionName) =>
    s.addClassMemberReferenceToClassMember (className, functionName) classMember
      inSignature
  | none =>
    match ctx.callingClass with
    | some callingClass =>
      s.addSymbolReferenceToClassMember callingClass classMember inSignature
    | none => s

/-- Model of `add_reference_to_overridden_class_member` (lines 169-195). -/
def SymbolReferences.addReferenceToOverriddenClassMember (s : SymbolReferences)
    (ctx : FunctionContext) (classMember : StrId × StrId) : SymbolReferences :=
  match ctx.callingFunctionlikeId with
  | some (.function functionName) =>
    { s with symbolReferencesToOverriddenMembers := srEntryInsert s.symbolReferencesToOverriddenMembers (functionName, StrId.empty) classMember }
  | some (.method className functionName) =>
    { s with symbolReferencesToOverriddenMembers := srEntryInsert s.symbolReferencesToOverriddenMembers (className, functionName) classMember }
  | none =>
    match ctx.callingClass with
    | some callingClass =>
      { s with symbolReferencesToOverriddenMembers := srEntryInsert s.symbolReferencesToOverriddenMembers (callingClass, StrId.empty) classMember }
    | none => s

/-- Model of `add_reference_to_symbol` (lines 197-218). -/
def SymbolReferences.addReferenceToSymbol (s : SymbolReferences)
    (ctx : FunctionContext) (symbol : StrId) (inSignature : Bool) :
    SymbolReferences :=
  match ctx.callingFunctionlikeId with
  | some (.function functionName) =>
    s.addSymbolReferenceToSymbol functionName symbol inSignature
  | some (.method className functionName) =>
    s.addClassMemberReferenceToSymbol (className, functionName) symbol inSignature
  | none =>
    match ctx.callingClass with
    | some callingClass => s.addSymbolReferenceToSymbol callingClass symbol inSignature
    | none => s

/-- Model of `add_reference_to_functionlike_return` (lines 220-229). -/
def SymbolReferences.addReferenceToFunctionlikeReturn (s : SymbolReferences)
    (referencingFunctionlike functionlike : FunctionLikeIdentifier) :
    SymbolReferences :=
  { s with functionlikeReferencesToFunctionlikeReturns := alInsert s.functionlikeReferencesToFunctionlikeReturns referencingFunctionlike (listAddSet ((alGet s.functionlikeReferencesToFunctionlikeReturns referencingFunctionlike).getD []) functionlike) }

/-- Model of `get_referenced_symbols_and_members` (lines 254-266): the union
of the value sets of the body and signature tables. -/
def SymbolReferences.getReferencedSymbolsAndMembers (s : SymbolReferences) :
    List (StrId × StrId) :=
  (s.symbolReferencesToSymbols.map (fun p => p.2)).flatten ++
    (s.symbolReferencesToSymbolsInSignature.map (fun p => p.2)).flatten

/-- Model of `get_referenced_overridden_class_members` (lines 268-277). -/
def SymbolReferences.getReferencedOverriddenClassMembers (s : SymbolReferences) :
    List (StrId × StrId) :=
  (s.symbolReferencesToOverriddenMembers.map (fun p => p.2)).flatten

/-- One recorded `add` operation on the tracker, covering every public
mutator of `SymbolReferences`. -/
inductive SymbolRefOp : Type where
  | symbolToSymbol : StrId → StrId → Bool → SymbolRefOp
  | symbolToMember : StrId → StrId × StrId → Bool → SymbolRefOp
  | memberToMember : StrId × StrId → StrId × StrId → Bool → SymbolRefOp
  | memberToSymbol : StrId × StrId → StrId → Bool → SymbolRefOp
  | refToMember : FunctionContext → StrId × StrId → Bool → SymbolRefOp
  | refToOverridden : FunctionContext → StrId × StrId → SymbolRefOp
  | refToSymbol : FunctionContext → StrId → Bool → SymbolRefOp
  | refToFunctionlikeReturn : FunctionLikeIdentifier → FunctionLikeIdentifier →
      SymbolRefOp

/-- Apply one recorded operation. -/
def SymbolReferences.applyOp (s : SymbolReferences) : SymbolRefOp → SymbolReferences
  | .symbolToSymbol a b inSig => s.addSymbolReferenceToSymbol a b inSig
  | .symbolToMember a cm inSig => s.addSymbolReferenceToClassMember a cm inSig
  | .memberToMember rcm cm inSig =>
    s.addClassMemberReferenceToClassMember rcm cm inSig
  | .memberToSymbol rcm b inSig => s.addClassMemberReferenceToSymbol rcm b inSig
  | .refToMember ctx cm inSig => s.addReferenceToClassMember ctx cm inSig
  | .refToOverridden ctx cm => s.addReferenceToOverriddenClassMember ctx cm
  | .refToSymbol ctx b inSig => s.addReferenceToSymbol ctx b inSig
  | .refToFunctionlikeReturn a b => s.addReferenceToFunctionlikeReturn a b

/-- Whether an atomic is a vec. -/
def isVecAtom : TAtomic → Bool
  | .tvec _ _ _ _ => true
  | _ => false

/-- Whether an atomic is `nothing`. -/
def isNothingAtom : TAtomic → Bool
  | .tnothing => true
  | _ => false

/-- Whether an atomic is the plain top `mixed`. -/
def isPlainMixedAtom : TAtomic → Bool
  | .tmixed => true
  | _ => false

/-- Whether an atomic is a dict. -/
def isDictAtom : TAtomic → Bool
  | .tdict _ _ _ _ => true
  | _ => false

/-- The `vec<int>` atomic used in the combination theorems. -/
def vecIntAtomic : TAtomic := .tvec none [.tint] false none

/-- The `HH\KeyedContainer<int, string>` atomic used in the combination
theorems. -/
def kcIntStringAtomic : TAtomic :=
  .tnamedObject "HH\\KeyedContainer" (some [[.tint], [.tstring]]) false

/-- C1: the claim says `combine` is commutative, in particular that combining
`vec<int>` with `HH\\KeyedContainer<int, string>` yields the promoted
`KeyedContainer<int, int|string>` regardless of operand order.  Scraping the
vec first, the KeyedContainer promotion branch stores a
`KeyedContainer<int, int>` under the plain class-name key
(`type_combiner.rs` lines 729-731 insert under the literal string
`"HH\\KeyedContainer"`) while the generic object itself is stored under its
canonical key `HH\\KeyedContainer<int, string>` (line 766), so the result
holds two KeyedContainer atomics; in the reverse order no promotion fires
and the vec survives.  The two results are not permutations of each other
(one holds a vec, the other none), and the claimed promoted
`KeyedContainer<int, int|string>` appears in neither. -/
theorem combine_commutativity_counterexample :
    combine 10 [vecIntAtomic, kcIntStringAtomic] none false =
      some [.tnamedObject "HH\\KeyedContainer" (some [[.tint], [.tint]]) false,
        .tnamedObject "HH\\KeyedContainer" (some [[.tint], [.tstring]]) false] ∧
    combine 10 [kcIntStringAtomic, vecIntAtomic] none false =
      some [vecIntAtomic, kcIntStringAtomic] ∧
    ((combine 10 [vecIntAtomic, kcIntStringAtomic] none false).getD []).countP
      (fun a => isVecAtom a) = 0 ∧
    ((combine 10 [kcIntStringAtomic, vecIntAtomic] none false).getD []).countP
      (fun a => isVecAtom a) = 1 ∧
    ((combine 10 [vecIntAtomic, kcIntStringAtomic] none false).getD []).countP
      (fun a => taBeq 10 a (.tnamedObject "HH\\KeyedContainer"
        (some [[.tint], [.tint, .tstring]]) false)) = 0 ∧
    ((combine 10 [kcIntStringAtomic, vecIntAtomic] none false).getD []).countP
      (fun a => taBeq 10 a (.tnamedObject "HH\\KeyedContainer"
        (some [[.tint], [.tint, .tstring]]) false)) = 0 :=
  ⟨rfl, rfl, rfl, rfl, rfl, rfl⟩

/-- C1 (amended): on the scalar instance `int | string` the two scraping
orders agree up to permutation, but `combine` is not commutative: scraping
`vec<int>` before `KeyedContainer<int, string>` promotes the vec into a
separate `KeyedContainer<int, int>` entry keyed by the plain class name
while the generic object keeps its canonical parameterised key, yielding two
KeyedContainer atomics; in the reverse order no promotion fires and the vec
survives.  The two container results are not permutations of each other. -/
theorem combine_commutativity_amended :
    combine 10 [.tint, .tstring] none false = some [.tint, .tstring] ∧
    combine 10 [.tstring, .tint] none false = some [.tstring, .tint] ∧
    ([TAtomic.tint, TAtomic.tstring].Perm [TAtomic.tstring, TAtomic.tint]) ∧
    combine 10 [vecIntAtomic, kcIntStringAtomic] none false =
      some [.tnamedObject "HH\\KeyedContainer" (some [[.tint], [.tint]]) false,
        .tnamedObject "HH\\KeyedContainer" (some [[.tint], [.tstring]]) false] ∧
    combine 10 [kcIntStringAtomic, vecIntAtomic] none false =
      some [vecIntAtomic, kcIntStringAtomic] ∧
    ¬ ((combine 10 [vecIntAtomic, kcIntStringAtomic] none false).getD []).Perm
        ((combine 10 [kcIntStringAtomic, vecIntAtomic] none false).getD []) := by
  refine ⟨rfl, rfl, List.Perm.swap _ _ _, rfl, rfl, ?_⟩
  intro h
  have hc := h.countP_eq (fun a => isVecAtom a)
  rw [show ((combine 10 [vecIntAtomic, kcIntStringAtomic] none false).getD
      []).countP (fun a => isVecAtom a) = 0 from rfl] at hc
  rw [show ((combine 10 [kcIntStringAtomic, vecIntAtomic] none false).getD
      []).countP (fun a => isVecAtom a) = 1 from rfl] at hc
  exact absurd hc (by decide)

/-- C3: `combine([True, False])` and `combine([False, Bool])` do unify to
`[Bool]` as the claim states, but `combine([True, False, Null])` returns
`[Bool]` alone: the unified `Bool` is inserted under the value-types key
`"null"` (`type_combiner.rs` lines 92-99), overwriting the `Null`
constituent, where the claim (and the union invariant) require the result to
contain both `bool` and `null`. -/
theorem bool_unification_code_bug_eval :
    combine 10 [.ttrue, .tfalse] none false = some [.tbool] ∧
    combine 10 [.tfalse, .tbool] none false = some [.tbool] ∧
    combine 10 [.ttrue, .tfalse, .tnull] none false = some [.tbool] ∧
    ((combine 10 [.ttrue, .tfalse, .tnull] none false).getD []).countP
      (fun a => match a with | .tnull => true | _ => false) = 0 :=
  ⟨rfl, rfl, rfl, rfl⟩

/-- The combiner accumulator after scraping the given distinct literal
ints. -/
def litIntComb (vals : List Int) : TypeCombination :=
  { literalInts := vals.map (fun v => (.klitInt v, .tliteralInt v)) }

/-- The combiner accumulator after the literal-int cap collapsed to `int`. -/
def intCollapsedComb : TypeCombination :=
  { valueTypes := [(.kstr "int", .tint)] }

lemma litIntComb_nil : litIntComb [] = TypeCombination.new := rfl

lemma alInsert_append_of_not_mem {κ α : Type} [DecidableEq κ]
    (m : List (κ × α)) (k : κ) (v : α) (h : k ∉ m.map Prod.fst) :
    alInsert m k v = m ++ [(k, v)] := by
  induction m with
  | nil => rfl
  | cons p rest ih =>
    have h1 : p.1 ≠ k := by
      intro e
      exact h (by simp [e])
    have h2 : k ∉ rest.map Prod.fst := fun hm => h (by simp [hm])
    simp [alInsert, h1, ih h2]

lemma scrapeCore_litInt_fresh (kf : Nat)
    (cmb : List TAtomic → Bool → Option (List TAtomic))
    (beq : List TAtomic → List TAtomic → Bool) (ow : Bool) (v : Int)
    (vals : List Int) (hv : v ∉ vals) :
    scrapeCore kf cmb beq (.tliteralInt v) (litIntComb vals) none ow =
      (if vals.length > 20 then some (.cont intCollapsedComb)
       else some (.cont (litIntComb (vals ++ [v])))) := by
  have hkey : TypeKey.klitInt v ∉
      ((vals.map (fun w => ((TypeKey.klitInt w), TAtomic.tliteralInt w))).map Prod.fst) := by
    simp only [List.map_map, List.mem_map, Function.comp]
    rintro ⟨x, hx, e⟩
    cases e
    exact hv hx
  have hins := alInsert_append_of_not_mem
    (vals.map (fun w => ((TypeKey.klitInt w), TAtomic.tliteralInt w)))
    (TypeKey.klitInt v) (TAtomic.tliteralInt v) hkey
  by_cases h20 : vals.length > 20
  · simp [scrapeCore, litIntComb, intCollapsedComb, alContains, alGet, alInsert,
      TAtomic.getKeyD, TAtomic.getKey, h20]
  · simp [scrapeCore, litIntComb, intCollapsedComb, alContains, alGet,
      TAtomic.getKeyD, TAtomic.getKey, h20, hins]

lemma scrapeCore_litInt_collapsed (kf : Nat)
    (cmb : List TAtomic → Bool → Option (List TAtomic))
    (beq : List TAtomic → List TAtomic → Bool) (ow : Bool) (v : Int) :
    scrapeCore kf cmb beq (.tliteralInt v) intCollapsedComb none ow =
      some (.cont intCollapsedComb) := rfl

lemma scrapeList_litInts_collapsed (kf : Nat)
    (cmb : List TAtomic → Bool → Option (List TAtomic))
    (beq : List TAtomic → List TAtomic → Bool) (ow : Bool) (vals : List Int) :
    scrapeList (fun a c => scrapeCore kf cmb beq a c none ow)
      (vals.map fun v => TAtomic.tliteralInt v) intCollapsedComb =
      some (.cont intCollapsedComb) := by
  induction vals with
  | nil => rfl
  | cons v rest ih =>
    simp [scrapeList, scrapeCore_litInt_collapsed, ih]

lemma scrapeList_litInts (kf : Nat)
    (cmb : List TAtomic → Bool → Option (List TAtomic))
    (beq : List TAtomic → List TAtomic → Bool) (ow : Bool) (vals : List Int) :
    ∀ acc : List Int, (acc ++ vals).Nodup → acc.length ≤ 21 →
    scrapeList (fun a c => scrapeCore kf cmb beq a c none ow)
      (vals.map fun v => TAtomic.tliteralInt v) (litIntComb acc) =
      (if acc.length + vals.length ≤ 21 then some (.cont (litIntComb (acc ++ vals)))
       else some (.cont intCollapsedComb)) := by
  induction vals with
  | nil =>
    intro acc h hle
    simp [scrapeList, Nat.add_zero, hle]
  | cons v rest ih =>
    intro acc h hle
    have hv : v ∉ acc := by
      rw [List.nodup_append] at h
      exact fun hin => h.2.2 hin (by simp)
    simp only [List.map_cons, scrapeList, scrapeCore_litInt_fresh kf cmb beq ow v acc hv]
    by_cases h20 : acc.length > 20
    · have h21 : acc.length = 21 := by omega
      simp only [h20, if_true]
      rw [scrapeList_litInts_collapsed]
      have hcond : ¬(acc.length + (v :: rest).length ≤ 21) := by
        simp only [List.length_cons]
        omega
      simp only [List.length_cons]
      rw [if_neg (by omega : ¬(acc.length + (rest.length + 1) ≤ 21))]
    · simp only [h20, if_false]
      have hnd2 : ((acc ++ [v]) ++ rest).Nodup := by
        have hassoc : (acc ++ [v]) ++ rest = acc ++ (v :: rest) := by simp
        rw [hassoc]
        exact h
      have hle2 : (acc ++ [v]).length ≤ 21 := by
        simp only [List.length_append, List.length_cons, List.length_nil]
        omega
      rw [ih (acc ++ [v]) hnd2 hle2]
      have harr : (acc ++ [v]) ++ rest = acc ++ (v :: rest) := by simp
      rw [harr]
      simp only [List.length_append, List.length_cons, List.length_nil]
      have hEq : acc.length + (0 + 1) + rest.length = acc.length + (rest.length + 1) := by
        omega
      rw [hEq]

lemma combineFinish_litInts (w : Int) (rest : List Int) :
    combineFinish (litIntComb (w :: rest)) =
      some ((w :: rest).map fun v => TAtomic.tliteralInt v) := by
  simp [combineFinish, litIntComb, alContains, alGet, List.map_map, Function.comp]

lemma combineFinish_intCollapsed : combineFinish intCollapsedComb = some [.tint] := rfl

lemma combine_litInts_small (f : Nat) (ow : Bool) (vals : List Int)
    (hnd : vals.Nodup) (hne : vals ≠ []) (hle : vals.length ≤ 21) :
    combine (f + 1) (vals.map fun v => TAtomic.tliteralInt v) none ow =
      some (vals.map fun v => TAtomic.tliteralInt v) := by
  obtain ⟨w, rest, rfl⟩ : ∃ w rest, vals = w :: rest := by
    cases vals with
    | nil => exact absurd rfl hne
    | cons w rest => exact ⟨w, rest, rfl⟩
  cases rest with
  | nil => rfl
  | cons w2 rest2 =>
    have h1 : (((w :: w2 :: rest2).map fun v => TAtomic.tliteralInt v).length == 1) = false := by
      simp
    simp only [combine, h1, if_false, Bool.false_eq_true]
    rw [show TypeCombination.new = litIntComb [] from rfl]
    rw [scrapeList_litInts f (fun ts ow2 => combine f ts none ow2) (taListBeq f) ow
      (w :: w2 :: rest2) [] (by simpa using hnd) (by simp)]
    have hc : (([] : List Int)).length + (w :: w2 :: rest2).length ≤ 21 := by
      simpa using hle
    rw [if_pos hc]
    simpa using combineFinish_litInts w (w2 :: rest2)

lemma combine_litInts_large (f : Nat) (ow : Bool) (vals : List Int)
    (hnd : vals.Nodup) (hge : 22 ≤ vals.length) :
    combine (f + 1) (vals.map fun v => TAtomic.tliteralInt v) none ow =
      some [.tint] := by
  simp only [combine]
  have h1 : ((vals.map fun v => TAtomic.tliteralInt v).length == 1) = false := by
    simp only [List.length_map]
    have : vals.length ≠ 1 := by omega
    simpa using this
  simp only [h1, if_false, Bool.false_eq_true]
  rw [show TypeCombination.new = litIntComb [] from rfl]
  rw [scrapeList_litInts f (fun ts ow2 => combine f ts none ow2) (taListBeq f) ow
    vals [] (by simpa using hnd) (by simp)]
  have hc : ¬((([] : List Int)).length + vals.length ≤ 21) := by
    simp only [List.length_nil, Nat.zero_add]
    omega
  rw [if_neg hc]
  exact combineFinish_intCollapsed

/-- C4: the claim says every sequence of 21 distinct literal ints collapses
to `[Int]`.  In fact `combine` over the 21 distinct literals `0..20`
returns all 21 literals unchanged (the cap check `literal_ints.len() > 20`
runs before the insertion, so the 21st literal is still stored): the result
has 21 atomics, not the single `Int` atomic. -/
theorem literal_cap_counterexample :
    combine 40 ((List.range 21).map fun i => TAtomic.tliteralInt (Int.ofNat i)) none false =
      some ((List.range 21).map fun i => TAtomic.tliteralInt (Int.ofNat i)) ∧
    ((combine 40 ((List.range 21).map fun i => TAtomic.tliteralInt (Int.ofNat i)) none
      false).getD []).length = 21 :=
  ⟨rfl, rfl⟩

/-- C4 (amended): a sequence of up to 21 distinct literal ints is returned
unchanged by `combine`, and every sequence of at least 22 distinct literal
ints collapses to `[Int]`; 22 distinct literal strings collapse to the
refined generic string `StringWithFlags(truthy, ¬nonempty, nonspecific)`. -/
theorem literal_cap_amended :
    (∀ (f : Nat) (ow : Bool) (vals : List Int), vals.Nodup → vals ≠ [] →
      vals.length ≤ 21 →
      combine (f + 1) (vals.map fun v => TAtomic.tliteralInt v) none ow =
        some (vals.map fun v => TAtomic.tliteralInt v)) ∧
    (∀ (f : Nat) (ow : Bool) (vals : List Int), vals.Nodup → 22 ≤ vals.length →
      combine (f + 1) (vals.map fun v => TAtomic.tliteralInt v) none ow =
        some [.tint]) ∧
    combine 40 ((List.range 22).map fun i => TAtomic.tliteralString (toString i)) none
      false = some [.tstringWithFlags true false true] :=
  ⟨fun f ow vals hnd hne hle => combine_litInts_small f ow vals hnd hne hle,
   fun f ow vals hnd hge => combine_litInts_large f ow vals hnd hge,
   rfl⟩

/-- C4 witness: the amended theorem applied to the concrete literal lists
`[5, 7]` and `0..21`. -/
theorem literal_cap_amended_witness :
    combine 1 ([5, 7].map fun v => TAtomic.tliteralInt v) none false =
      some [.tliteralInt 5, .tliteralInt 7] ∧
    combine 1 (((List.range 22).map fun i => Int.ofNat i).map fun v =>
      TAtomic.tliteralInt v) none false = some [.tint] := by
  refine ⟨?_, ?_⟩
  · exact literal_cap_amended.1 0 false [5, 7] (by decide) (by decide) (by decide)
  · exact literal_cap_amended.2.1 0 false ((List.range 22).map fun i => Int.ofNat i)
      (by decide) (by decide)

/-- The operand atomics that survive false-coercion, in order. -/
def coerceOperand (ig : Bool) (l : List TAtomic) : List TAtomic :=
  l.filterMap (coerceAtomic ig)

/-- Sequence a failing computation over a list (explicit `Option` traversal,
used to state the cross-product characterization). -/
def optionMapM {α β : Type} (f : α → Option β) : List α → Option (List β)
  | [] => some []
  | a :: t =>
    match f a with
    | none => none
    | some b => (optionMapM f t).map (fun bs => b :: bs)

lemma optionMapM_append {α β : Type} (f : α → Option β) (l1 l2 : List α) :
    optionMapM f (l1 ++ l2) =
      (optionMapM f l1).bind (fun b1 => (optionMapM f l2).map (fun b2 => b1 ++ b2)) := by
  induction l1 with
  | nil =>
    cases h2 : optionMapM f l2 with
    | none => simp [optionMapM, h2]
    | some b2 => simp [optionMapM, h2]
  | cons a t ih =>
    cases hfa : f a with
    | none => simp [optionMapM, hfa]
    | some b =>
      simp only [List.cons_append, optionMapM, hfa, List.append_eq]
      rw [ih]
      cases h1 : optionMapM f t with
      | none => simp
      | some b1 =>
        cases h2 : optionMapM f l2 with
        | none => simp
        | some b2 => simp

lemma optionMapM_map {α β γ : Type} (g : α → β) (f : β → Option γ) (l : List α) :
    optionMapM f (l.map g) = optionMapM (fun a => f (g a)) l := by
  induction l with
  | nil => rfl
  | cons a t ih => simp [optionMapM, ih]

lemma arith_inner_foldl_none (op : Bop) (e2 : TUnion) (x : TAtomic)
    (l2 : List TAtomic) :
    l2.foldl (fun acc2 a2 =>
      match acc2 with
      | none => none
      | some rs2 =>
        match coerceAtomic e2.ignoreFalsableIssues a2 with
        | none => some rs2
        | some y =>
          match arithmeticPairResult op x y with
          | none => none
          | some r => some (rs2 ++ [r])) none = none := by
  induction l2 with
  | nil => rfl
  | cons a t ih => simpa using ih

lemma arith_inner_foldl (op : Bop) (e2 : TUnion) (x : TAtomic) :
    ∀ (l2 : List TAtomic) (rs : List TAtomic),
    l2.foldl (fun acc2 a2 =>
      match acc2 with
      | none => none
      | some rs2 =>
        match coerceAtomic e2.ignoreFalsableIssues a2 with
        | none => some rs2
        | some y =>
          match arithmeticPairResult op x y with
          | none => none
          | some r => some (rs2 ++ [r])) (some rs) =
      (optionMapM (fun y => arithmeticPairResult op x y)
        (coerceOperand e2.ignoreFalsableIssues l2)).map (fun ds => rs ++ ds) := by
  intro l2
  induction l2 with
  | nil =>
    intro rs
    simp [coerceOperand, optionMapM]
  | cons a t ih =>
    intro rs
    cases hca : coerceAtomic e2.ignoreFalsableIssues a with
    | none =>
      simp only [List.foldl_cons, hca]
      rw [ih rs]
      simp [coerceOperand, List.filterMap_cons, hca]
    | some y =>
      cases hp : arithmeticPairResult op x y with
      | none =>
        simp only [List.foldl_cons, hca, hp]
        rw [arith_inner_foldl_none]
        simp [coerceOperand, List.filterMap_cons, hca, optionMapM, hp]
      | some r =>
        simp only [List.foldl_cons, hca, hp]
        rw [ih (rs ++ [r])]
        simp only [coerceOperand, List.filterMap_cons, hca, optionMapM, hp]
        cases optionMapM (fun y => arithmeticPairResult op x y)
            (t.filterMap (coerceAtomic e2.ignoreFalsableIssues)) with
        | none => simp
        | some ds => simp

lemma arith_outer_foldl_none (op : Bop) (e1 e2 : TUnion) (l1 : List TAtomic) :
    l1.foldl (fun acc a1 =>
      match acc with
      | none => none
      | some rs =>
        match coerceAtomic e1.ignoreFalsableIssues a1 with
        | none => some rs
        | some x =>
          e2.types.foldl (fun acc2 a2 =>
            match acc2 with
            | none => none
            | some rs2 =>
              match coerceAtomic e2.ignoreFalsableIssues a2 with
              | none => some rs2
              | some y =>
                match arithmeticPairResult op x y with
                | none => none
                | some r => some (rs2 ++ [r])) (some rs)) none = none := by
  induction l1 with
  | nil => rfl
  | cons a t ih => simpa using ih

/-- The cross-product characterization: the arithmetic analyzer's result
sequence is the pairwise results over the coerced operand atomics, in
product order. -/
lemma arithmeticResults_eq (op : Bop) (e1 e2 : TUnion) :
    arithmeticResults op e1 e2 =
      optionMapM (fun p => arithmeticPairResult op p.1 p.2)
        ((coerceOperand e1.ignoreFalsableIssues e1.types).flatMap
          (fun x => (coerceOperand e2.ignoreFalsableIssues e2.types).map
            (fun y => (x, y)))) := by
  have aux : ∀ (l1 : List TAtomic) (rs : List TAtomic),
      l1.foldl (fun acc a1 =>
        match acc with
        | none => none
        | some rs =>
          match coerceAtomic e1.ignoreFalsableIssues a1 with
          | none => some rs
          | some x =>
            e2.types.foldl (fun acc2 a2 =>
              match acc2 with
              | none => none
              | some rs2 =>
                match coerceAtomic e2.ignoreFalsableIssues a2 with
                | none => some rs2
                | some y =>
                  match arithmeticPairResult op x y with
                  | none => none
                  | some r => some (rs2 ++ [r])) (some rs)) (some rs) =
        (optionMapM (fun p => arithmeticPairResult op p.1 p.2)
          ((l1.filterMap (coerceAtomic e1.ignoreFalsableIssues)).flatMap
            (fun x => (coerceOperand e2.ignoreFalsableIssues e2.types).map
              (fun y => (x, y))))).map (fun ds => rs ++ ds) := by
    intro l1
    induction l1 with
    | nil =>
      intro rs
      simp [optionMapM]
    | cons a t ih =>
      intro rs
      cases hca : coerceAtomic e1.ignoreFalsableIssues a with
      | none =>
        simp only [List.foldl_cons, hca]
        rw [ih rs]
        simp [List.filterMap_cons, hca]
      | some x =>
        simp only [List.foldl_cons, hca]
        rw [arith_inner_foldl op e2 x e2.types rs]
        have hsplit : ((x :: t.filterMap (coerceAtomic e1.ignoreFalsableIssues)).flatMap
            (fun x => (coerceOperand e2.ignoreFalsableIssues e2.types).map
              (fun y => (x, y)))) =
            ((coerceOperand e2.ignoreFalsableIssues e2.types).map (fun y => (x, y))) ++
            ((t.filterMap (coerceAtomic e1.ignoreFalsableIssues)).flatMap
              (fun x => (coerceOperand e2.ignoreFalsableIssues e2.types).map
                (fun y => (x, y)))) := by
          simp [List.flatMap_cons]
        cases hm : optionMapM (fun y => arithmeticPairResult op x y)
            (coerceOperand e2.ignoreFalsableIssues e2.types) with
        | none =>
          rw [show (Option.map (fun ds => rs ++ ds)
            (none : Option (List TAtomic))) = none from rfl]
          rw [arith_outer_foldl_none]
          simp only [List.filterMap_cons, hca, hsplit]
          rw [optionMapM_append]
          rw [optionMapM_map (fun y => (x, y))
            (fun p => arithmeticPairResult op p.1 p.2)
            (coerceOperand e2.ignoreFalsableIssues e2.types)]
          rw [hm]
          rfl
        | some ds =>
          rw [show (Option.map (fun ds2 => rs ++ ds2)
            (some ds : Option (List TAtomic))) = some (rs ++ ds) from rfl]
          rw [ih (rs ++ ds)]
          simp only [List.filterMap_cons, hca, hsplit]
          rw [optionMapM_append]
          rw [optionMapM_map (fun y => (x, y))
            (fun p => arithmeticPairResult op p.1 p.2)
            (coerceOperand e2.ignoreFalsableIssues e2.types)]
          rw [hm]
          cases optionMapM (fun p => arithmeticPairResult op p.1 p.2)
              ((t.filterMap (coerceAtomic e1.ignoreFalsableIssues)).flatMap
                (fun x => (coerceOperand e2.ignoreFalsableIssues e2.types).map
                  (fun y => (x, y)))) with
          | none => simp
          | some ds2 => simp [List.append_assoc]
  have base := aux e1.types []
  simp only [arithmeticResults]
  rw [base]
  simp [coerceOperand]

lemma wrap64_eq_of_range (z : Int) (h1 : -(2 ^ 63) ≤ z) (h2 : z < 2 ^ 63) :
    wrap64 z = z := by
  unfold wrap64
  have e63 : (2 : Int) ^ 63 = 9223372036854775808 := by norm_num
  have e64 : (2 : Int) ^ 64 = 18446744073709551616 := by norm_num
  rw [e63, e64] at *
  rw [Int.emod_eq_of_lt (by omega) (by omega)]
  omega

/-- C2: the claim says an empty intersection makes `reconcile_in_array`
report an impossibility and return the `Nothing` union.  At `string` asserted
in-array against existing `int` the issue is reported but the function
returns the any-mixed union (`get_mixed_any()` at `reconcile_in_array`'s
final line), which is not the `Nothing` union. -/
theorem in_array_counterexample :
    reconcileInArray 10 (TUnion.new [.tstring]) (TUnion.new [.tint]) true true =
      (getMixedAny, [.redundantTypeComparison]) ∧
    getMixedAny.types.countP (fun a => isNothingAtom a) = 0 ∧
    getNothing.types.countP (fun a => isNothingAtom a) = 1 :=
  ⟨rfl, rfl, rfl⟩

/-- C2 (amended): `reconcile_in_array` returns the intersection of the two
unions when it is nonempty; when the intersection is empty it reports an
impossibility issue exactly when both a variable key and a source position
are available, and returns the any-mixed union (not `Nothing`). -/
theorem in_array_amended (f : Nat) (typed existing : TUnion) (hasKey hasPos : Bool) :
    (∀ i, intersectUnionTypes f typed existing = some i →
      reconcileInArray f typed existing hasKey hasPos = (i, [])) ∧
    (intersectUnionTypes f typed existing = none →
      (reconcileInArray f typed existing hasKey hasPos).1 = getMixedAny ∧
      ((reconcileInArray f typed existing hasKey hasPos).2 ≠ [] ↔
        hasKey = true ∧ hasPos = true)) := by
  constructor
  · intro i hi
    simp [reconcileInArray, hi]
  · intro hn
    refine ⟨by simp [reconcileInArray, hn], ?_⟩
    simp only [reconcileInArray, hn]
    cases hasKey <;> cases hasPos <;> simp [triggerIssueForImpossible]

/-- C2 witness: the amended theorem applied to a nonempty intersection
(`int(3)` against `int`) and to an empty one (`string` against `int` with no
variable key). -/
theorem in_array_amended_witness :
    reconcileInArray 10 (TUnion.new [.tliteralInt 3]) (TUnion.new [.tint]) true true =
      (TUnion.new [.tliteralInt 3], []) ∧
    (reconcileInArray 10 (TUnion.new [.tstring]) (TUnion.new [.tint]) false true).2 =
      [] := by
  constructor
  · exact (in_array_amended 10 (TUnion.new [.tliteralInt 3]) (TUnion.new [.tint])
      true true).1 (TUnion.new [.tliteralInt 3]) rfl
  · have h := (in_array_amended 10 (TUnion.new [.tstring]) (TUnion.new [.tint])
      false true).2 rfl
    simpa using h.2

lemma issetTransform_ne_null (b : TAtomic) : issetTransform b ≠ some .tnull := by
  intro h
  unfold issetTransform at h
  split at h <;> simp_all

/-- C6: the claim says reconciling `IsIsset` returns the input union with
the `Null` atomic removed.  On the union `mixed` the reconciler instead
refines the `mixed` atomic to a nonnull mixed-with-flags atomic, so the
result is not the input with `Null` removed (which would be `mixed`
itself). -/
theorem isset_counterexample :
    reconcileIsset (TUnion.new [.tmixed]) false true true false =
      (⟨[.tmixedWithFlags false false false true], false, false⟩, []) ∧
    [TAtomic.tmixed].countP (fun a => isPlainMixedAtom a) = 1 ∧
    (reconcileIsset (TUnion.new [.tmixed]) false true true false).1.types.countP
      (fun a => isPlainMixedAtom a) = 0 :=
  ⟨rfl, rfl, rfl⟩

/-- C6 (amended): reconciling `IsIsset` removes `Null` atomics and refines
mixed atomics to their nonnull forms (so `int|string|null` becomes
`int|string` and `null` never survives); when every atomic is removed the
result is `Nothing`; when the filtered union is exactly `Nothing` the result
becomes `Mixed`, or `MixedFromLoopIsset` inside a loop. -/
theorem isset_amended :
    (∀ hk hp, reconcileIsset (TUnion.new [.tint, .tstring, .tnull]) false hk hp false =
      (⟨[.tint, .tstring], false, false⟩, [])) ∧
    (∀ (u : TUnion) (pu hk hp loop : Bool),
      TAtomic.tnull ∉ (reconcileIsset u pu hk hp loop).1.types) ∧
    (∀ (u : TUnion) (pu hk hp loop : Bool), u.types = [.tnothing] →
      (reconcileIsset u pu hk hp loop).1.types =
        [if !loop then TAtomic.tmixed else TAtomic.tmixedFromLoopIsset]) ∧
    (∀ (u : TUnion) (pu hk hp loop : Bool),
      ¬(u.types.filterMap issetTransform).isEmpty = true →
      ¬listIsNothing (u.types.filterMap issetTransform) = true →
      (reconcileIsset u pu hk hp loop).1.types = u.types.filterMap issetTransform) := by
  refine ⟨fun hk hp => rfl, ?_, ?_, ?_⟩
  · intro u pu hk hp loop
    have key : ∀ x ∈ u.types.filterMap issetTransform, x ≠ TAtomic.tnull := by
      intro x hx he3
      rw [List.mem_filterMap] at hx
      obtain ⟨b, hb, he2⟩ := hx
      exact issetTransform_ne_null b (he3 ▸ he2)
    simp only [reconcileIsset]
    by_cases he : (u.types.filterMap issetTransform).isEmpty
    · simp [he, getNothing, TUnion.new]
    · by_cases hn : listIsNothing (u.types.filterMap issetTransform)
      · simp only [he, hn, if_true, if_false, Bool.false_eq_true]
        cases loop <;> simp
      · simp only [he, hn, if_false, Bool.false_eq_true]
        intro hmem
        refine key _ ?_ rfl
        simpa using hmem
  · intro u pu hk hp loop h
    simp [reconcileIsset, h, issetTransform, listIsNothing]
  · intro u pu hk hp loop he hn
    simp [reconcileIsset, he, hn]

/-- C6 witness: the amended theorem applied to the `Nothing` union and to
`int|null`. -/
theorem isset_amended_witness :
    (reconcileIsset (TUnion.new [.tnothing]) false true true false).1.types =
      [.tmixed] ∧
    (reconcileIsset (TUnion.new [.tint, .tnull]) false true true false).1.types =
      [.tint] := by
  constructor
  · have h := isset_amended.2.2.1 (TUnion.new [.tnothing]) false true true false rfl
    simpa using h
  · have h := isset_amended.2.2.2 (TUnion.new [.tint, .tnull]) false true true false
      (by decide) (by decide)
    simpa using h

/-- C7: the claim says every dict with general params has the matching known
item introduced from the value param.  When the asserted key cannot inhabit
the dict's key param (string key `"b"` against `dict<int, int>`) the
reconciler instead drops the dict entirely, returning the `Nothing` union
with a `TypeDoesNotContain` issue (`simple_assertion_reconciler.rs` lines
1820-1830): the result contains no dict at all. -/
theorem has_array_key_counterexample :
    reconcileHasArrayKey 10
      (TUnion.new [.tdict none (some ([.tint], [.tint])) false none])
      (.dstr "b") true true false =
      some (getNothing, [.typeDoesNotContain]) ∧
    getNothing.types.countP (fun a => isDictAtom a) = 0 :=
  ⟨rfl, rfl⟩

/-- C7 (amended): on a dict with known items, `HasArrayKey(k)` clears the
matching slot's `possibly_undefined` flag, and `HasNonnullEntryForKey(k)`
clears the flag and additionally subtracts `Null` from the slot's union; a
key absent from the known items is introduced from the dict's value param
when general params exist (with `Null` subtracted for the nonnull-entry
assertion); but a dict with only general params whose key param cannot
contain the asserted key is dropped, yielding `Nothing` — not the dict with
the item introduced.  The spec's scenario 4 (`dict<string, int|null>` with
`HasNonnullEntryForKey("k")`) holds as stated. -/
theorem has_array_key_amended
    (f : Nat) (items : List (DictKey × (Bool × List TAtomic)))
    (params : Option (List TAtomic × List TAtomic)) (ne : Bool)
    (sn : Option String) (k : DictKey) (ty : List TAtomic) (hk hp pu : Bool) :
    (alGet items k = some (true, ty) →
      reconcileHasArrayKey (f + 1)
        (TUnion.new [.tdict (some items) params ne sn]) k hk hp pu =
        some (TUnion.new
          [.tdict (some (alInsert items k (false, ty))) params ne sn], []) ∧
      reconcileHasNonnullEntryForKey (f + 1)
        (TUnion.new [.tdict (some items) params ne sn]) k hk hp pu =
        some (TUnion.new
          [.tdict (some (alInsert items k (false, subtractNull ty))) params ne sn],
          [])) ∧
    (∀ kp vp, alGet items k = none →
      reconcileHasArrayKey (f + 1)
        (TUnion.new [.tdict (some items) (some (kp, vp)) ne sn]) k hk hp pu =
        some (TUnion.new
          [.tdict (some (alInsert items k (false, vp))) (some (kp, vp)) ne sn],
          []) ∧
      reconcileHasNonnullEntryForKey (f + 1)
        (TUnion.new [.tdict (some items) (some (kp, vp)) ne sn]) k hk hp pu =
        some (TUnion.new
          [.tdict (some (alInsert items k (false, subtractNull vp)))
            (some (kp, vp)) ne sn], [])) ∧
    reconcileHasNonnullEntryForKey 10
      (TUnion.new [.tdict none (some ([.tstring], [.tint, .tnull])) false none])
      (.dstr "k") true true false =
      some (TUnion.new
        [.tdict (some [(.dstr "k", false, [.tint])])
          (some ([.tstring], [.tint, .tnull])) false none], []) := by
  refine ⟨?_, ?_, rfl⟩
  · intro h
    constructor
    · simp [reconcileHasArrayKey, TUnion.new, h]
    · simp [reconcileHasNonnullEntryForKey, TUnion.new, h]
  · intro kp vp h
    constructor
    · simp [reconcileHasArrayKey, TUnion.new, h]
    · simp [reconcileHasNonnullEntryForKey, TUnion.new, h]

/-- C7 witness: the amended theorem applied to a shape with known item
`"a" → (possibly_undefined = true, int|null)` (flag cleared; null subtracted
for the nonnull-entry assertion) and to known items lacking key `"c"` with
general params `dict<string, int|null>` (item introduced). -/
theorem has_array_key_amended_witness :
    reconcileHasArrayKey 10
      (TUnion.new
        [.tdict (some [(.dstr "a", true, [.tint, .tnull])]) none false none])
      (.dstr "a") true true false =
      some (TUnion.new
        [.tdict (some [(.dstr "a", false, [.tint, .tnull])]) none false none],
        []) ∧
    reconcileHasNonnullEntryForKey 10
      (TUnion.new
        [.tdict (some [(.dstr "a", true, [.tint, .tnull])]) none false none])
      (.dstr "a") true true false =
      some (TUnion.new
        [.tdict (some [(.dstr "a", false, [.tint])]) none false none], []) ∧
    reconcileHasArrayKey 10
      (TUnion.new
        [.tdict (some [(.dstr "a", false, [.tint])])
          (some ([.tstring], [.tint, .tnull])) false none])
      (.dstr "c") true true false =
      some (TUnion.new
        [.tdict (some [(.dstr "a", false, [.tint]), (.dstr "c", false, [.tint, .tnull])])
          (some ([.tstring], [.tint, .tnull])) false none], []) := by
  have h1 := (has_array_key_amended 9 [(.dstr "a", true, [.tint, .tnull])] none
    false none (.dstr "a") [.tint, .tnull] true true false).1 rfl
  have h2 := (has_array_key_amended 9 [(.dstr "a", false, [.tint])]
    (some ([.tstring], [.tint, .tnull])) false none (.dstr "c") [] true true
    false).2.1 [.tstring] [.tint, .tnull] rfl
  exact ⟨h1.1, h1.2, h2.1⟩

/-- C5: the claim says the Module, SetModule AND Package nodes all analyze
without raising.  The `Package` arm of `def_analyzer::analyze`
(`def_analyzer.rs` line 97) is `todo!()`, which panics: the analyzer aborts
instead of returning normally. -/
theorem def_analyzer_counterexample :
    defAnalyze {} "a.hack" (.dpackage 0) = .error .todoUnimplemented := rfl

/-- C5 (amended): the `Module` and `SetModule` nodes return normally,
emitting at most one issue, always of kind `UnrecognizedStatement` and
positioned at the node's span — exactly one whenever configuration allows
it — but the `Package` node hits `todo!()` and aborts for every input. -/
theorem def_analyzer_amended (cfg : Config) (fp : String) (span : Nat) :
    ((∃ issues, defAnalyze cfg fp (.dmodule span) = .ok issues) ∧
     (∃ issues, defAnalyze cfg fp (.dsetModule span) = .ok issues)) ∧
    (∀ issues, (defAnalyze cfg fp (.dmodule span) = .ok issues ∨
        defAnalyze cfg fp (.dsetModule span) = .ok issues) →
      issues.length ≤ 1 ∧
      ∀ i ∈ issues, i.kind = .unrecognizedStatement ∧ i.pos = hposOfOffset span) ∧
    (cfg.allowIssueKindInFile .unrecognizedStatement fp = true →
     cfg.canAddIssue { kind := .unrecognizedStatement, message := "Unrecognized statement", pos := hposOfOffset span, functionlikeId := none } = true →
     defAnalyze cfg fp (.dmodule span) = .ok [{ kind := .unrecognizedStatement, message := "Unrecognized statement", pos := hposOfOffset span, functionlikeId := none }] ∧
     defAnalyze cfg fp (.dsetModule span) = .ok [{ kind := .unrecognizedStatement, message := "Unrecognized statement", pos := hposOfOffset span, functionlikeId := none }]) ∧
    defAnalyze cfg fp (.dpackage span) = .error .todoUnimplemented := by
  refine ⟨⟨⟨_, rfl⟩, ⟨_, rfl⟩⟩, ?_, ?_, rfl⟩
  · intro issues hok
    have hiss : issues = maybeAddIssue cfg fp { kind := .unrecognizedStatement, message := "Unrecognized statement", pos := hposOfOffset span, functionlikeId := none } [] := by
      rcases hok with h | h <;>
        simpa [defAnalyze] using h.symm
    subst hiss
    unfold maybeAddIssue
    split <;> simp
  · intro hallow hcan
    constructor <;> simp [defAnalyze, maybeAddIssue, hallow, hcan]

/-- C5 witness: the amended theorem applied to the default configuration
(which allows every issue), a file path and span 7. -/
theorem def_analyzer_amended_witness :
    defAnalyze {} "a.hack" (.dmodule 7) = .ok [{ kind := .unrecognizedStatement, message := "Unrecognized statement", pos := hposOfOffset 7, functionlikeId := none }] ∧
    defAnalyze {} "a.hack" (.dpackage 7) = .error .todoUnimplemented := by
  have h := def_analyzer_amended {} "a.hack" 7
  exact ⟨(h.2.2.1 rfl rfl).1, h.2.2.2⟩

lemma unused_foldl_eq (cb : CodebaseInfo) (cfg : Config)
    (ip : Option (List String)) (refs : List (StrId × StrId)) :
    ∀ (l : List (StrId × FunctionLikeInfo))
      (st : Option (List Issue × List UnusedReplacement)),
    l.foldl (fun st entry =>
      match st with
      | none => none
      | some (issues, replacements) =>
        match unusedFunctionEntry cb cfg ip refs entry.1 entry.2 with
        | none => none
        | some (di, dr) => some (issues ++ di, replacements ++ dr)) st =
      st.bind (fun acc =>
        (optionMapM (fun e => unusedFunctionEntry cb cfg ip refs e.1 e.2) l).map
          (fun cs => (acc.1 ++ (cs.map Prod.fst).flatten,
            acc.2 ++ (cs.map Prod.snd).flatten))) := by
  intro l
  induction l with
  | nil =>
    intro st
    cases st <;> simp [optionMapM]
  | cons e t ih =>
    intro st
    cases st with
    | none =>
      simp only [List.foldl_cons]
      rw [ih none]
      simp
    | some acc =>
      cases he : unusedFunctionEntry cb cfg ip refs e.1 e.2 with
      | none =>
        simp only [List.foldl_cons, he]
        rw [ih none]
        simp [optionMapM, he]
      | some p =>
        obtain ⟨di, dr⟩ := p
        simp only [List.foldl_cons, he]
        rw [ih (some (acc.1 ++ di, acc.2 ++ dr))]
        simp only [optionMapM, he]
        cases ht : optionMapM (fun e => unusedFunctionEntry cb cfg ip refs e.1 e.2) t with
        | none => simp
        | some cs => simp

lemma findUnusedFunctions_eq (cb : CodebaseInfo) (cfg : Config)
    (ip : Option (List String)) (refs : List (StrId × StrId)) :
    findUnusedFunctions cb cfg ip refs =
      (optionMapM (fun e => unusedFunctionEntry cb cfg ip refs e.1 e.2)
        cb.functionlikeInfos).map
        (fun cs => ((cs.map Prod.fst).flatten, (cs.map Prod.snd).flatten)) := by
  have h := unused_foldl_eq cb cfg ip refs cb.functionlikeInfos (some ([], []))
  simpa [findUnusedFunctions] using h

lemma unusedFunctionEntry_ids (cb : CodebaseInfo) (cfg : Config)
    (ip : Option (List String)) (refs : List (StrId × StrId)) (g : StrId)
    (info : FunctionLikeInfo) (o : List Issue × List UnusedReplacement)
    (h : unusedFunctionEntry cb cfg ip refs g info = some o) :
    ∀ i ∈ o.1, i.functionlikeId = some (.function g) ∧ i.kind = .unusedFunction := by
  simp only [unusedFunctionEntry] at h
  repeat' split at h
  all_goals (try cases h)
  all_goals simp_all

lemma unusedFunctionEntry_unused (cb : CodebaseInfo) (cfg : Config)
    (ip : Option (List String)) (refs : List (StrId × StrId)) (f : StrId)
    (info : FunctionLikeInfo) (pos : HPos)
    (h1 : info.userDefined = true) (h2 : info.dynamicallyCallable = false)
    (h3 : info.generated = false) (h4 : info.nameLocation = some pos)
    (h5 : (match ip with
      | some ips => ips.any (fun p => strContainsSubstr (cb.internerLookup pos.filePath) p)
      | none => false) = false)
    (h6 : refs.contains (f, StrId.empty) = false)
    (h7 : (match info.suppressedIssues with
      | some si => si.contains IssueKind.unusedFunction
      | none => false) = false)
    (h8 : cfg.allowIssueKindInFile .unusedFunction (cb.internerLookup pos.filePath) = true)
    (h9 : cfg.canAddIssue { kind := .unusedFunction, message := "Unused function " ++ cb.internerLookup f, pos := pos, functionlikeId := some (.function f) } = true) :
    (unusedFunctionEntry cb cfg ip refs f info).map Prod.fst =
      some [{ kind := .unusedFunction, message := "Unused function " ++ cb.internerLookup f, pos := pos, functionlikeId := some (.function f) }] := by
  simp at h6
  rcases hsi : info.suppressedIssues with _ | si
  · simp [unusedFunctionEntry, h1, h2, h3, h4, h5, h6, hsi, h8, h9]
  · rw [hsi] at h7
    simp at h7
    simp [unusedFunctionEntry, h1, h2, h3, h4, h5, h6, hsi, h7, h8, h9]

lemma unusedFunctionEntry_referenced (cb : CodebaseInfo) (cfg : Config)
    (ip : Option (List String)) (refs : List (StrId × StrId)) (g : StrId)
    (info : FunctionLikeInfo) (o : List Issue × List UnusedReplacement)
    (h : unusedFunctionEntry cb cfg ip refs g info = some o)
    (href : refs.contains (g, StrId.empty) = true) :
    o.1 = [] := by
  simp only [unusedFunctionEntry, href] at h
  repeat' split at h
  all_goals (try cases h)
  all_goals simp_all

lemma unused_count_zero (cb : CodebaseInfo) (cfg : Config)
    (ip : Option (List String)) (refs : List (StrId × StrId)) (f : StrId) :
    ∀ (l : List (StrId × FunctionLikeInfo))
      (cs : List (List Issue × List UnusedReplacement)),
    optionMapM (fun e => unusedFunctionEntry cb cfg ip refs e.1 e.2) l = some cs →
    (∀ e ∈ l, ∀ o, unusedFunctionEntry cb cfg ip refs e.1 e.2 = some o →
      o.1.countP (fun i => decide (i.functionlikeId = some (.function f))) = 0) →
    ((cs.map Prod.fst).flatten).countP
      (fun i => decide (i.functionlikeId = some (.function f))) = 0 := by
  intro l
  induction l with
  | nil =>
    intro cs hcs hz
    simp only [optionMapM, Option.some.injEq] at hcs
    subst hcs
    simp
  | cons e t ih =>
    intro cs hcs hz
    simp only [optionMapM] at hcs
    cases he : unusedFunctionEntry cb cfg ip refs e.1 e.2 with
    | none => rw [he] at hcs; simp at hcs
    | some o =>
      rw [he] at hcs
      cases ht : optionMapM (fun e => unusedFunctionEntry cb cfg ip refs e.1 e.2) t with
      | none => rw [ht] at hcs; simp at hcs
      | some cs' =>
        rw [ht] at hcs
        simp only [Option.map_some', Option.some.injEq] at hcs
        subst hcs
        simp only [List.map_cons, List.flatten_cons, List.countP_append]
        rw [hz e (List.mem_cons_self e t) o he,
          ih cs' ht (fun e' he' o' ho' => hz e' (List.mem_cons_of_mem e he') o' ho')]

lemma unused_count_split (cb : CodebaseInfo) (cfg : Config)
    (ip : Option (List String)) (refs : List (StrId × StrId)) (f : StrId)
    (info : FunctionLikeInfo) (iss : Issue)
    (hiss : iss.functionlikeId = some (.function f)) :
    ∀ (l : List (StrId × FunctionLikeInfo))
      (cs : List (List Issue × List UnusedReplacement)),
    optionMapM (fun e => unusedFunctionEntry cb cfg ip refs e.1 e.2) l = some cs →
    (f, info) ∈ l → (l.map Prod.fst).Nodup →
    (unusedFunctionEntry cb cfg ip refs f info).map Prod.fst = some [iss] →
    ((cs.map Prod.fst).flatten).countP
      (fun i => decide (i.functionlikeId = some (.function f))) = 1 ∧
    iss ∈ (cs.map Prod.fst).flatten := by
  intro l
  induction l with
  | nil => intro cs _ hmem; exact absurd hmem (List.not_mem_nil _)
  | cons e t ih =>
    intro cs hcs hmem hnodup hentry
    simp only [optionMapM] at hcs
    cases he : unusedFunctionEntry cb cfg ip refs e.1 e.2 with
    | none => rw [he] at hcs; simp at hcs
    | some o =>
      rw [he] at hcs
      cases ht : optionMapM (fun e => unusedFunctionEntry cb cfg ip refs e.1 e.2) t with
      | none => rw [ht] at hcs; simp at hcs
      | some cs' =>
        rw [ht] at hcs
        simp only [Option.map_some', Option.some.injEq] at hcs
        subst hcs
        simp only [List.map_cons, List.nodup_cons] at hnodup
        rcases List.mem_cons.mp hmem with heq | hmem'
        · -- the head entry is (f, info)
          have he' : unusedFunctionEntry cb cfg ip refs f info = some o := by
            rw [← heq] at he
            exact he
          have ho1 : o.1 = [iss] := by
            rw [he'] at hentry
            simpa using hentry
          have htail0 : ((cs'.map Prod.fst).flatten).countP
              (fun i => decide (i.functionlikeId = some (.function f))) = 0 := by
            refine unused_count_zero cb cfg ip refs f t cs' ht ?_
            intro e' he'mem o' ho'
            have hne : e'.1 ≠ f := by
              intro hc
              have : f ∈ t.map Prod.fst := by
                rw [← hc]
                exact List.mem_map_of_mem Prod.fst he'mem
              rw [← heq] at hnodup
              exact hnodup.1 this
            rw [List.countP_eq_zero]
            intro i hi
            have hid := (unusedFunctionEntry_ids cb cfg ip refs e'.1 e'.2 o' ho' i hi).1
            simp [hid, hne]
          simp only [List.map_cons, List.flatten_cons, List.countP_append, ho1,
            htail0]
          constructor
          · simp [hiss]
          · exact List.mem_append_left _ (List.mem_cons_self _ _)
        · -- (f, info) is in the tail
          have hne : e.1 ≠ f := by
            intro hc
            have : f ∈ t.map Prod.fst := by
              have : (f, info).1 ∈ t.map Prod.fst := List.mem_map_of_mem Prod.fst hmem'
              simpa using this
            rw [hc] at hnodup
            exact hnodup.1 this
          have hhead0 : o.1.countP
              (fun i => decide (i.functionlikeId = some (.function f))) = 0 := by
            rw [List.countP_eq_zero]
            intro i hi
            have hid := (unusedFunctionEntry_ids cb cfg ip refs e.1 e.2 o he i hi).1
            simp [hid, hne]
          have hrest := ih cs' ht hmem' hnodup.2 hentry
          simp only [List.map_cons, List.flatten_cons, List.countP_append, hhead0,
            hrest.1]
          exact ⟨trivial, List.mem_append_right _ hrest.2⟩

/-- C8 (confirmed): given distinct function names, `find_unused_definitions`'
function loop emits exactly one `UnusedFunction` issue — positioned at the
function's name location and tagged with the function's identifier — for
every user-defined, non-generated, non-dynamically-callable function whose
name appears in no entry of the referenced-symbols set and that is not
path-ignored, suppressed, or disallowed by configuration; and it emits no
issue tagged with a function whose name is referenced. -/
theorem unused_function_detection (cb : CodebaseInfo) (cfg : Config)
    (ip : Option (List String)) (refs : List (StrId × StrId))
    (hnodup : (cb.functionlikeInfos.map Prod.fst).Nodup) :
    (∀ (f : StrId) (info : FunctionLikeInfo) (pos : HPos)
       (out : List Issue × List UnusedReplacement),
      findUnusedFunctions cb cfg ip refs = some out →
      (f, info) ∈ cb.functionlikeInfos →
      info.userDefined = true → info.dynamicallyCallable = false →
      info.generated = false → info.nameLocation = some pos →
      (match ip with
       | some ips => ips.any (fun p => strContainsSubstr (cb.internerLookup pos.filePath) p)
       | none => false) = false →
      refs.contains (f, StrId.empty) = false →
      (match info.suppressedIssues with
       | some si => si.contains IssueKind.unusedFunction
       | none => false) = false →
      cfg.allowIssueKindInFile .unusedFunction (cb.internerLookup pos.filePath) = true →
      cfg.canAddIssue { kind := .unusedFunction, message := "Unused function " ++ cb.internerLookup f, pos := pos, functionlikeId := some (.function f) } = true →
      out.1.countP (fun i => decide (i.functionlikeId = some (.function f))) = 1 ∧
      ({ kind := .unusedFunction, message := "Unused function " ++ cb.internerLookup f, pos := pos, functionlikeId := some (.function f) } : Issue) ∈ out.1) ∧
    (∀ (f : StrId) (out : List Issue × List UnusedReplacement),
      findUnusedFunctions cb cfg ip refs = some out →
      refs.contains (f, StrId.empty) = true →
      out.1.countP (fun i => decide (i.functionlikeId = some (.function f))) = 0) := by
  constructor
  · intro f info pos out hout hmem h1 h2 h3 h4 h5 h6 h7 h8 h9
    rw [findUnusedFunctions_eq] at hout
    cases hm : optionMapM (fun e => unusedFunctionEntry cb cfg ip refs e.1 e.2)
        cb.functionlikeInfos with
    | none => rw [hm] at hout; simp at hout
    | some cs =>
      rw [hm] at hout
      simp only [Option.map_some', Option.some.injEq] at hout
      have hentry := unusedFunctionEntry_unused cb cfg ip refs f info pos
        h1 h2 h3 h4 h5 h6 h7 h8 h9
      have hsplit := unused_count_split cb cfg ip refs f info
        { kind := .unusedFunction, message := "Unused function " ++ cb.internerLookup f, pos := pos, functionlikeId := some (.function f) }
        rfl cb.functionlikeInfos cs hm hmem hnodup hentry
      rw [← hout]
      exact hsplit
  · intro f out hout href
    rw [findUnusedFunctions_eq] at hout
    cases hm : optionMapM (fun e => unusedFunctionEntry cb cfg ip refs e.1 e.2)
        cb.functionlikeInfos with
    | none => rw [hm] at hout; simp at hout
    | some cs =>
      rw [hm] at hout
      simp only [Option.map_some', Option.some.injEq] at hout
      rw [← hout]
      refine unused_count_zero cb cfg ip refs f cb.functionlikeInfos cs hm ?_
      intro e hemem o ho
      by_cases hef : e.1 = f
      · have := unusedFunctionEntry_referenced cb cfg ip refs e.1 e.2 o ho
          (by rw [hef]; exact href)
        simp [this]
      · rw [List.countP_eq_zero]
        intro i hi
        have hid := (unusedFunctionEntry_ids cb cfg ip refs e.1 e.2 o ho i hi).1
        simp [hid, hef]

/-- A two-function codebase for exercising the unused-definition pass:
functions `1` and `2`, both user-defined with name locations. -/
def unusedWitnessInfo : FunctionLikeInfo :=
  { userDefined := true, dynamicallyCallable := false, generated := false, nameLocation := some { startOffset := 5, endOffset := 6 }, defLocation := {}, suppressedIssues := none }

def unusedWitnessCodebase : CodebaseInfo :=
  { functionlikeInfos := [(1, unusedWitnessInfo), (2, unusedWitnessInfo)], internerLookup := fun _ => "f" }

/-- C8 witness: the detection theorem applied to a codebase defining
functions `1` (never referenced: one issue at its name location) and `2`
(referenced: no issue). -/
theorem unused_function_detection_witness :
    ([({ kind := .unusedFunction, message := "Unused function f", pos := { startOffset := 5, endOffset := 6 }, functionlikeId := some (.function 1) } : Issue)].countP
      (fun i => decide (i.functionlikeId = some (FunctionLikeIdentifier.function 1))) = 1) ∧
    (({ kind := .unusedFunction, message := "Unused function f", pos := { startOffset := 5, endOffset := 6 }, functionlikeId := some (.function 1) } : Issue) ∈
      [({ kind := .unusedFunction, message := "Unused function f", pos := { startOffset := 5, endOffset := 6 }, functionlikeId := some (.function 1) } : Issue)]) ∧
    ([({ kind := .unusedFunction, message := "Unused function f", pos := { startOffset := 5, endOffset := 6 }, functionlikeId := some (.function 1) } : Issue)].countP
      (fun i => decide (i.functionlikeId = some (FunctionLikeIdentifier.function 2))) = 0) := by
  have h := unused_function_detection unusedWitnessCodebase {} none
    [(2, StrId.empty)] (by decide)
  have h1 := h.1 1 unusedWitnessInfo { startOffset := 5, endOffset := 6 }
    ([{ kind := .unusedFunction, message := "Unused function f", pos := { startOffset := 5, endOffset := 6 }, functionlikeId := some (.function 1) }], [])
    rfl (List.mem_cons_self _ _) rfl rfl rfl rfl rfl rfl rfl rfl rfl
  have h2 := h.2 2
    ([{ kind := .unusedFunction, message := "Unused function f", pos := { startOffset := 5, endOffset := 6 }, functionlikeId := some (.function 1) }], [])
    rfl rfl
  exact ⟨h1.1, h1.2, h2⟩

lemma mem_listAddSet {α : Type} [DecidableEq α] (l : List α) (v x : α) :
    x ∈ listAddSet l v ↔ x = v ∨ x ∈ l := by
  by_cases hv : v ∈ l
  · simp only [listAddSet, if_pos hv]
    constructor
    · exact fun h => Or.inr h
    · rintro (rfl | h)
      · exact hv
      · exact h
  · simp only [listAddSet, if_neg hv, List.mem_append, List.mem_singleton]
    tauto

lemma mem_flatten_map_srEntryInsert
    (t : List ((StrId × StrId) × List (StrId × StrId)))
    (k v x : StrId × StrId) :
    x ∈ ((srEntryInsert t k v).map (fun p => p.2)).flatten ↔
      x = v ∨ x ∈ (t.map (fun p => p.2)).flatten := by
  induction t with
  | nil =>
    simp [srEntryInsert, alInsert, alGet, mem_listAddSet]
  | cons p rest ih =>
    by_cases hk : p.1 = k
    · have h1 : alGet (p :: rest) k = some p.2 := by simp [alGet, hk]
      simp only [srEntryInsert, h1, Option.getD_some, alInsert, if_pos hk,
        List.map_cons, List.flatten_cons, List.mem_append, mem_listAddSet]
      tauto
    · have h1 : alGet (p :: rest) k = alGet rest k := by simp [alGet, hk]
      simp only [srEntryInsert, h1, alInsert, if_neg hk, List.map_cons,
        List.flatten_cons, List.mem_append]
      rw [show alInsert rest k (listAddSet ((alGet rest k).getD []) v) =
        srEntryInsert rest k v from rfl]
      rw [ih]
      tauto

/-- The member-containment invariant of the reference tracker: every
referenced class member is accompanied by a reference to the class symbol
itself. -/
def refsInvariant (s : SymbolReferences) : Prop :=
  ∀ c m : StrId, (c, m) ∈ s.getReferencedSymbolsAndMembers →
    (c, StrId.empty) ∈ s.getReferencedSymbolsAndMembers

lemma mem_refs_addSymbolToSymbol (s : SymbolReferences) (a b : StrId)
    (inSig : Bool) (x : StrId × StrId) :
    x ∈ (s.addSymbolReferenceToSymbol a b inSig).getReferencedSymbolsAndMembers ↔
      x = (b, StrId.empty) ∨ x ∈ s.getReferencedSymbolsAndMembers := by
  cases inSig
  all_goals
    simp only [SymbolReferences.addSymbolReferenceToSymbol,
      Bool.false_eq_true, if_false, if_true,
      SymbolReferences.getReferencedSymbolsAndMembers, List.mem_append,
      mem_flatten_map_srEntryInsert]
  all_goals tauto

lemma mem_refs_addSymbolToClassMember (s : SymbolReferences) (a : StrId)
    (cm : StrId × StrId) (inSig : Bool) (x : StrId × StrId) :
    x ∈ (s.addSymbolReferenceToClassMember a cm inSig).getReferencedSymbolsAndMembers ↔
      x = cm ∨ x = (cm.1, StrId.empty) ∨ x ∈ s.getReferencedSymbolsAndMembers := by
  cases inSig
  all_goals
    simp only [SymbolReferences.addSymbolReferenceToClassMember,
      SymbolReferences.addSymbolReferenceToSymbol,
      Bool.false_eq_true, if_false, if_true,
      SymbolReferences.getReferencedSymbolsAndMembers, List.mem_append,
      mem_flatten_map_srEntryInsert]
  all_goals tauto

lemma mem_refs_addClassMemberToClassMember (s : SymbolReferences)
    (rcm cm : StrId × StrId) (inSig : Bool) (x : StrId × StrId) :
    x ∈ (s.addClassMemberReferenceToClassMember rcm cm
        inSig).getReferencedSymbolsAndMembers ↔
      x = cm ∨ x = (cm.1, StrId.empty) ∨ x ∈ s.getReferencedSymbolsAndMembers := by
  cases inSig
  all_goals
    simp only [SymbolReferences.addClassMemberReferenceToClassMember,
      SymbolReferences.addSymbolReferenceToSymbol,
      Bool.false_eq_true, if_false, if_true,
      SymbolReferences.getReferencedSymbolsAndMembers, List.mem_append,
      mem_flatten_map_srEntryInsert]
  all_goals tauto

lemma mem_refs_addClassMemberToSymbol (s : SymbolReferences)
    (rcm : StrId × StrId) (b : StrId) (inSig : Bool) (x : StrId × StrId) :
    x ∈ (s.addClassMemberReferenceToSymbol rcm b
        inSig).getReferencedSymbolsAndMembers ↔
      x = (b, StrId.empty) ∨ x ∈ s.getReferencedSymbolsAndMembers := by
  cases inSig
  all_goals
    simp only [SymbolReferences.addClassMemberReferenceToSymbol,
      SymbolReferences.addSymbolReferenceToSymbol,
      Bool.false_eq_true, if_false, if_true,
      SymbolReferences.getReferencedSymbolsAndMembers, List.mem_append,
      mem_flatten_map_srEntryInsert]
  all_goals tauto

lemma refs_addOverridden (s : SymbolReferences) (ctx : FunctionContext)
    (cm : StrId × StrId) :
    (s.addReferenceToOverriddenClassMember ctx cm).getReferencedSymbolsAndMembers =
      s.getReferencedSymbolsAndMembers := by
  rcases hcf : ctx.callingFunctionlikeId with _ | fid
  · rcases hcc : ctx.callingClass with _ | cc
    all_goals
      simp [SymbolReferences.addReferenceToOverriddenClassMember, hcf, hcc,
        SymbolReferences.getReferencedSymbolsAndMembers]
  · cases fid
    all_goals
      simp [SymbolReferences.addReferenceToOverriddenClassMember, hcf,
        SymbolReferences.getReferencedSymbolsAndMembers]

lemma refs_addFunctionlikeReturn (s : SymbolReferences)
    (a b : FunctionLikeIdentifier) :
    (s.addReferenceToFunctionlikeReturn a b).getReferencedSymbolsAndMembers =
      s.getReferencedSymbolsAndMembers := by
  simp [SymbolReferences.addReferenceToFunctionlikeReturn,
    SymbolReferences.getReferencedSymbolsAndMembers]

lemma refsInvariant_extend (s s' : SymbolReferences) (add : List (StrId × StrId))
    (hiff : ∀ x, x ∈ s'.getReferencedSymbolsAndMembers ↔
      x ∈ add ∨ x ∈ s.getReferencedSymbolsAndMembers)
    (hclosed : ∀ c m : StrId, (c, m) ∈ add → (c, StrId.empty) ∈ add)
    (h : refsInvariant s) : refsInvariant s' := by
  intro c m hmem
  rw [hiff] at hmem
  rw [hiff]
  rcases hmem with hadd | hold
  · exact Or.inl (hclosed c m hadd)
  · exact Or.inr (h c m hold)

lemma memberAdd_closed (cm : StrId × StrId) :
    ∀ c m : StrId, (c, m) ∈ [cm, (cm.1, StrId.empty)] →
      (c, StrId.empty) ∈ [cm, (cm.1, StrId.empty)] := by
  intro c m hcm
  simp only [List.mem_cons, List.mem_singleton, List.not_mem_nil, or_false] at hcm
  rcases hcm with hcm | hcm
  · rw [← hcm]
    simp
  · rw [Prod.mk.injEq] at hcm
    obtain ⟨rfl, rfl⟩ := hcm
    simp

lemma symbolAdd_closed (b : StrId) :
    ∀ c m : StrId, (c, m) ∈ [(b, StrId.empty)] →
      (c, StrId.empty) ∈ [(b, StrId.empty)] := by
  intro c m hcm
  simp only [List.mem_singleton] at hcm
  rw [Prod.mk.injEq] at hcm
  obtain ⟨rfl, rfl⟩ := hcm
  simp

lemma refsInvariant_applyOp (s : SymbolReferences) (op : SymbolRefOp)
    (h : refsInvariant s) : refsInvariant (s.applyOp op) := by
  cases op with
  | symbolToSymbol a b inSig =>
    refine refsInvariant_extend s _ [(b, StrId.empty)] ?_ (symbolAdd_closed b) h
    intro x
    simp [SymbolReferences.applyOp, mem_refs_addSymbolToSymbol]
  | symbolToMember a cm inSig =>
    refine refsInvariant_extend s _ [cm, (cm.1, StrId.empty)] ?_
      (memberAdd_closed cm) h
    intro x
    simp [SymbolReferences.applyOp, mem_refs_addSymbolToClassMember, or_assoc]
  | memberToMember rcm cm inSig =>
    refine refsInvariant_extend s _ [cm, (cm.1, StrId.empty)] ?_
      (memberAdd_closed cm) h
    intro x
    simp [SymbolReferences.applyOp, mem_refs_addClassMemberToClassMember, or_assoc]
  | memberToSymbol rcm b inSig =>
    refine refsInvariant_extend s _ [(b, StrId.empty)] ?_ (symbolAdd_closed b) h
    intro x
    simp [SymbolReferences.applyOp, mem_refs_addClassMemberToSymbol]
  | refToMember ctx cm inSig =>
    rcases hcf : ctx.callingFunctionlikeId with _ | fid
    · rcases hcc : ctx.callingClass with _ | cc
      · intro c m hmem
        simp only [SymbolReferences.applyOp,
          SymbolReferences.addReferenceToClassMember, hcf, hcc] at hmem ⊢
        exact h c m hmem
      · refine refsInvariant_extend s _ [cm, (cm.1, StrId.empty)] ?_
          (memberAdd_closed cm) h
        intro x
        simp [SymbolReferences.applyOp,
          SymbolReferences.addReferenceToClassMember, hcf, hcc,
          mem_refs_addSymbolToClassMember, or_assoc]
    · cases fid with
      | function n =>
        refine refsInvariant_extend s _ [cm, (cm.1, StrId.empty)] ?_
          (memberAdd_closed cm) h
        intro x
        simp [SymbolReferences.applyOp,
          SymbolReferences.addReferenceToClassMember, hcf,
          mem_refs_addSymbolToClassMember, or_assoc]
      | method cn fn =>
        refine refsInvariant_extend s _ [cm, (cm.1, StrId.empty)] ?_
          (memberAdd_closed cm) h
        intro x
        simp [SymbolReferences.applyOp,
          SymbolReferences.addReferenceToClassMember, hcf,
          mem_refs_addClassMemberToClassMember, or_assoc]
  | refToOverridden ctx cm =>
    intro c m hmem
    simp only [SymbolReferences.applyOp, refs_addOverridden] at hmem ⊢
    exact h c m hmem
  | refToSymbol ctx b inSig =>
    rcases hcf : ctx.callingFunctionlikeId with _ | fid
    · rcases hcc : ctx.callingClass with _ | cc
      · intro c m hmem
        simp only [SymbolReferences.applyOp,
          SymbolReferences.addReferenceToSymbol, hcf, hcc] at hmem ⊢
        exact h c m hmem
      · refine refsInvariant_extend s _ [(b, StrId.empty)] ?_
          (symbolAdd_closed b) h
        intro x
        simp [SymbolReferences.applyOp, SymbolReferences.addReferenceToSymbol,
          hcf, hcc, mem_refs_addSymbolToSymbol]
    · cases fid with
      | function n =>
        refine refsInvariant_extend s _ [(b, StrId.empty)] ?_
          (symbolAdd_closed b) h
        intro x
        simp [SymbolReferences.applyOp, SymbolReferences.addReferenceToSymbol,
          hcf, mem_refs_addSymbolToSymbol]
      | method cn fn =>
        refine refsInvariant_extend s _ [(b, StrId.empty)] ?_
          (symbolAdd_closed b) h
        intro x
        simp [SymbolReferences.applyOp, SymbolReferences.addReferenceToSymbol,
          hcf, mem_refs_addClassMemberToSymbol]
  | refToFunctionlikeReturn a b =>
    intro c m hmem
    simp only [SymbolReferences.applyOp, refs_addFunctionlikeReturn] at hmem ⊢
    exact h c m hmem

lemma refsInvariant_foldl :
    ∀ (l : List SymbolRefOp) (s : SymbolReferences), refsInvariant s →
      refsInvariant (l.foldl SymbolReferences.applyOp s) := by
  intro l
  induction l with
  | nil => intro s hs; exact hs
  | cons o t ih =>
    intro s hs
    exact ih _ (refsInvariant_applyOp s o hs)

/-- C10 (confirmed): whenever a reference to a class member `(C, m)` is
recorded, the same call records a reference to the class symbol `C` itself in
the same table, so after any sequence of add operations starting from the
empty tracker, every member pair `(C, m)` in the referenced-symbols-and-
members set is accompanied by `(C, empty)`. -/
theorem symbol_reference_containment (ops : List SymbolRefOp) (c m : StrId)
    (hmem : (c, m) ∈ (ops.foldl SymbolReferences.applyOp
      SymbolReferences.new).getReferencedSymbolsAndMembers) :
    (c, StrId.empty) ∈ (ops.foldl SymbolReferences.applyOp
      SymbolReferences.new).getReferencedSymbolsAndMembers := by
  have base : refsInvariant SymbolReferences.new := by
    intro c m hm
    simp [SymbolReferences.new,
      SymbolReferences.getReferencedSymbolsAndMembers] at hm
  exact refsInvariant_foldl ops SymbolReferences.new base c m hmem

/-- C10 witness: recording method `3` of class `2` from function `1` makes
`(2, 3)` referenced, and the class symbol entry `(2, empty)` is then present
as well. -/
theorem symbol_reference_containment_witness :
    ((2 : StrId), StrId.empty) ∈
      ([SymbolRefOp.symbolToMember 1 (2, 3) false].foldl
        SymbolReferences.applyOp
        SymbolReferences.new).getReferencedSymbolsAndMembers :=
  symbol_reference_containment [SymbolRefOp.symbolToMember 1 (2, 3) false] 2 3
    (by decide)
